import Mathlib

/-!
Verification of the harvest poller's collector-selection logic and of the
RestPerf collector's performance-counter post-processing, against a shallow
embedding of `cmd/collectors/restperf/restperf.go` together with the matrix
arithmetic and poller components described in the specification.

Numeric cell values are modelled as rationals: every statement below concerns
which arithmetic operation is applied to which cell, not IEEE-754 rounding.
A cell is `some v` when the matrix records a valid value for the instance and
`none` when the cell is invalid.
-/

namespace Harvest

/-- Association-list lookup keyed by strings; mirrors a Go map read
(the first binding for a key wins, matching unique map keys). -/
def lookupKey {β : Type} (k : String) : List (String × β) → Option β
  | [] => none
  | p :: rest => if p.1 = k then some p.2 else lookupKey k rest

/-- Apply a key-dependent function to every value of an association list,
keeping the keys; mirrors in-place mutation of values held in a Go map. -/
def mapVals {β : Type} (f : String → β → β) (l : List (String × β)) : List (String × β) :=
  l.map (fun p => (p.1, f p.1 p.2))

/-! ## Matrix cell arithmetic

Modelled from the spec: the `pkg/matrix` arithmetic (`delta`, `divide`,
`divide_with_threshold`, `multiply_by_scalar`, §4.1) is not part of the
source tree, only its callers in restperf.go are.  Each operation is
cell-wise over the value vector of a metric. -/

/-- Cell vector of one metric, one entry per instance; `none` is an invalid cell. -/
abbrev Cells := List (Option ℚ)

/-- Modelled from the spec: `delta(other)` computes current − previous per cell and
invalidates cells where either side is invalid or where current < previous
(counter wrap is invalidated, not negated). -/
def deltaCells (cur prev : Cells) : Cells :=
  List.zipWith (fun c p =>
    match c, p with
    | some c, some p => if c < p then none else some (c - p)
    | _, _ => none) cur prev

/-- Modelled from the spec: `divide(denominator)` divides cell-wise and invalidates
the cell when the denominator is 0 or either side is invalid. -/
def divideCells (num den : Cells) : Cells :=
  List.zipWith (fun n d =>
    match n, d with
    | some n, some d => if d = 0 then none else some (n / d)
    | _, _ => none) num den

/-- Modelled from the spec: `divide_with_threshold(denominator, threshold)` used for
latency counters; when the denominator cell is below the threshold it produces 0
and marks the cell valid, otherwise it divides. -/
def divideWithThresholdCells (num den : Cells) (threshold : ℚ) : Cells :=
  List.zipWith (fun n d =>
    match n, d with
    | some n, some d => if d < threshold then some 0 else some (n / d)
    | _, _ => none) num den

/-- Modelled from the spec: `multiply_by_scalar(k)` scales every valid cell. -/
def multiplyCells (cells : Cells) (k : ℚ) : Cells :=
  cells.map (Option.map (· * k))

/-- The division an `average` or `percent` counter receives (restperf.go lines
845-849): latency metrics (display name ending in `latency`) use the
thresholded division, all others the plain one. -/
def avgPctCells (latReqd : ℚ) (nm : String) (dk db : Cells) : Cells :=
  if nm.endsWith "latency" then divideWithThresholdCells dk db latReqd
  else divideCells dk db

/-! ## Metric and matrix model (pkg/matrix shapes used by restperf.go) -/

/-- One metric column: display name (`GetName`/`SetName`), array flag, export flag,
property (set only for the synthetic timestamp), labels and the value vector. -/
structure SMetric where
  name : String
  isArray : Bool := false
  exportable : Bool := true
  property : String := ""
  labels : List (String × String) := []
  cells : Cells := []
deriving DecidableEq, Repr

/-- Mirrors `Metric.SetLabel`: map-style upsert of one label. -/
def SMetric.setLabel (m : SMetric) (k v : String) : SMetric :=
  { m with labels := (k, v) :: m.labels.filter (fun p => p.1 ≠ k) }

/-- A matrix as the restperf post-processing sees it: a keyed collection of
metric columns.  Instances appear only through the per-metric value vectors. -/
structure SMatrix where
  metrics : List (String × SMetric)
deriving DecidableEq, Repr

def SMatrix.getMetric (m : SMatrix) (k : String) : Option SMetric :=
  lookupKey k m.metrics

/-- In-place mutation of the metric stored under `k` (Go metric pointers live
inside the matrix map). -/
def SMatrix.updateMetric (m : SMatrix) (k : String) (f : SMetric → SMetric) : SMatrix :=
  ⟨mapVals (fun k' met => if k' = k then f met else met) m.metrics⟩

/-- Mirrors `NewMetricFloat64`: callers check for absence before creating. -/
def SMatrix.addMetric (m : SMatrix) (k : String) (met : SMetric) : SMatrix :=
  ⟨m.metrics ++ [(k, met)]⟩

/-! ## RestPerf counter metadata (restperf.go) -/

/-- Mirrors the unexported `counter` struct of restperf.go. -/
structure Counter where
  name : String := ""
  description : String := ""
  counterType : String := ""
  unit : String := ""
  denominator : String := ""
deriving DecidableEq, Repr

/-- Mirrors the fields of `perfProp` used by the data poll. -/
structure PerfProp where
  isCacheEmpty : Bool
  counterInfo : List (String × Counter)
  latencyIoReqd : Int
deriving DecidableEq, Repr

/-- Prefix of an array-metric key before its last `#` (array metric keys have the
form `name#label`); a key without `#` is returned unchanged (the Go slice
expression is only reached for array keys, which always contain `#`). -/
def stripArrayKey (s : String) : String :=
  match s.toList.reverse.dropWhile (· ≠ '#') with
  | [] => s
  | _ :: rest => ⟨rest.reverse⟩

/-- Mirrors `RestPerf.counterLookup`: an array metric key `name#label` resolves to
the counter registered under `name`. -/
def counterLookup (pp : PerfProp) (metric : SMetric) (metricKey : String) : Option Counter :=
  if metric.isArray then lookupKey (stripArrayKey metricKey) pp.counterInfo
  else lookupKey metricKey pp.counterInfo

def qosQuery : String := "api/cluster/counter/tables/qos"
def qosVolumeQuery : String := "api/cluster/counter/tables/qos_volume"
def qosDetailQuery : String := "api/cluster/counter/tables/qos_detail"
def qosDetailVolumeQuery : String := "api/cluster/counter/tables/qos_detail_volume"

def isWorkloadObject (query : String) : Bool :=
  query = qosQuery || query = qosVolumeQuery

def isWorkloadDetailObject (query : String) : Bool :=
  query = qosDetailQuery || query = qosDetailVolumeQuery

/-- Mirrors `loadParamInt` (restperf.go): empty or non-integer parameter values
fall back to the default. -/
def loadParamInt (paramValue : String) (defaultValue : Int) : Int :=
  if paramValue = "" then defaultValue
  else
    match paramValue.toInt? with
    | some n => n
    | none => defaultValue

/-- The constant `latencyIoReqd = 10` of restperf.go. -/
def latencyIoReqd : Int := 10

/-- Mirrors `InitMatrix`: `perfProp.latencyIoReqd = loadParamInt("latency_io_reqd", latencyIoReqd)`. -/
def initLatencyIoReqd (paramValue : String) : Int :=
  loadParamInt paramValue latencyIoReqd

/-! ## RestPerf.PollData post-processing (restperf.go lines 735-901)

The embedding starts where the raw sample `newData` has been fetched and
filled; everything before (HTTP fetch, JSON parsing, instance matching) is
out of scope of the claims. -/

/-- Metrics eligible for post-processing: the partition loop skips the synthetic
timestamp column (by display name) and metrics with no registered counter. -/
def eligiblePairs (pp : PerfProp) (m : SMatrix) : List (String × SMetric) :=
  m.metrics.filter (fun p => p.2.name ≠ "timestamp" && (counterLookup pp p.2 p.1).isSome)

/-- Whether a metric's counter requires a base (denominator) counter. -/
def hasDenominator (pp : PerfProp) (p : String × SMetric) : Bool :=
  match counterLookup pp p.2 p.1 with
  | some c => c.denominator ≠ ""
  | none => false

/-- The processing order of the partition loop: metrics that do not require a
base counter first, then metrics that do. -/
def orderedPairs (pp : PerfProp) (m : SMatrix) : List (String × SMetric) :=
  (eligiblePairs pp m).filter (fun p => !hasDenominator pp p)
    ++ (eligiblePairs pp m).filter (fun p => hasDenominator pp p)

def orderedMetricKeys (pp : PerfProp) (m : SMatrix) : List String :=
  (orderedPairs pp m).map Prod.fst

/-- The unit tag one metric receives in the partition loop
(`metric.SetLabel("unit", counter.unit)`); skipped metrics are untouched. -/
def unitLabelFn (pp : PerfProp) (k : String) (met : SMetric) : SMetric :=
  if met.name ≠ "timestamp" then
    match counterLookup pp met k with
    | some c => met.setLabel "unit" c.unit
    | none => met
  else met

/-- The partition loop also tags each processed metric with its counter unit,
except for workload-detail objects. -/
def setUnitLabels (pp : PerfProp) (query : String) (m : SMatrix) : SMatrix :=
  if isWorkloadDetailObject query then m
  else ⟨mapVals (unitLabelFn pp) m.metrics⟩

/-- Timestamp delta, computed before any metric is processed (restperf.go line 785).
A failed delta (no previous timestamp column) is logged and processing continues
with the raw timestamps. -/
def timestampDelta (prevM : SMatrix) (m : SMatrix) : SMatrix :=
  match prevM.getMetric "timestamp" with
  | none => m
  | some pts =>
      m.updateMetric "timestamp" (fun ts => { ts with cells := deltaCells ts.cells pts.cells })

/-- Delta step: `metric.Delta(r.Matrix.GetMetric(key))` mutating the metric under
`key` in place. -/
def deltaStep (prevMetric : SMetric) (st : SMatrix) (key : String) : SMatrix :=
  st.updateMetric key (fun met => { met with cells := deltaCells met.cells prevMetric.cells })

/-- Division by the base counter (restperf.go lines 845-849): latency metrics use
the thresholded division with `perfProp.latencyIoReqd`, all others the plain one. -/
def divideStep (pp : PerfProp) (base : SMetric) (st : SMatrix) (key : String) : SMatrix :=
  st.updateMetric key (fun met =>
    { met with cells :=
        if met.name.endsWith "latency" then
          divideWithThresholdCells met.cells base.cells (pp.latencyIoReqd : ℚ)
        else
          divideCells met.cells base.cells })

/-- The `percent` scaling `metric.MultiplyByScalar(100)`. -/
def scaleStep (st : SMatrix) (key : String) : SMatrix :=
  st.updateMetric key (fun met => { met with cells := multiplyCells met.cells 100 })

/-- Processing after the delta for counters that need a base counter (restperf.go
lines 828-871): a missing base skips the metric (its delta is kept); `average`
and `percent` divide by the base's current cells, `percent` then scales by 100;
an unknown counter type is logged and left at its delta. -/
def processDenom (pp : PerfProp) (c : Counter) (st : SMatrix) (key : String) : SMatrix :=
  match st.getMetric c.denominator with
  | none => st
  | some base =>
    if c.counterType = "average" ∨ c.counterType = "percent" then
      if c.counterType = "average" then divideStep pp base st key
      else scaleStep (divideStep pp base st key) key
    else st

/-- One step of the first processing pass (restperf.go lines 791-872): raw counters
are left alone; every other counter is deltified against the previous sample
(a missing previous metric fails the delta and skips the metric); `delta` stops
there; `rate` is deferred to the second pass; counters with a base are handled
by `processDenom`. -/
def processOne (pp : PerfProp) (prevM : SMatrix) (st : SMatrix) (key : String) : SMatrix :=
  match st.getMetric key with
  | none => st
  | some metric =>
    match counterLookup pp metric key with
    | none => st
    | some c =>
      if c.counterType = "raw" then st
      else
        match prevM.getMetric key with
        | none => st
        | some prevMetric =>
          if c.counterType = "delta" then deltaStep prevMetric st key
          else if c.counterType = "rate" then deltaStep prevMetric st key
          else processDenom pp c (deltaStep prevMetric st key) key

/-- First pass over the ordered metrics. -/
def pass1 (pp : PerfProp) (prevM : SMatrix) (st : SMatrix) (keys : List String) : SMatrix :=
  keys.foldl (processOne pp prevM) st

/-- Division of a rate counter's delta by the timestamp column. -/
def rateStep (ts : SMetric) (st : SMatrix) (key : String) : SMatrix :=
  st.updateMetric key (fun met => { met with cells := divideCells met.cells ts.cells })

/-- One step of the deferred rate pass (restperf.go lines 875-894): a rate counter's
delta is divided by the deltified timestamp column. -/
def processRate (pp : PerfProp) (st : SMatrix) (key : String) : SMatrix :=
  match st.getMetric key with
  | none => st
  | some metric =>
    match counterLookup pp metric key with
    | none => st
    | some c =>
      if c.counterType = "rate" then
        match st.getMetric "timestamp" with
        | none => st
        | some ts => rateStep ts st key
      else st

/-- Second (rate) pass over the same ordered metrics. -/
def pass2 (pp : PerfProp) (st : SMatrix) (keys : List String) : SMatrix :=
  keys.foldl (processRate pp) st

/-- The post-processing state entering the second pass: unit labels set, timestamp
deltified, first pass done. -/
def pollDataPass1State (pp : PerfProp) (query : String) (prevM newData : SMatrix) : SMatrix :=
  pass1 pp prevM (timestampDelta prevM (setUnitLabels pp query newData))
    (orderedMetricKeys pp newData)

/-- The fully processed matrix returned downstream on a non-first poll. -/
def pollDataResult (pp : PerfProp) (query : String) (prevM newData : SMatrix) : SMatrix :=
  pass2 pp (pollDataPass1State pp query prevM newData) (orderedMetricKeys pp newData)

/-- Tail of `RestPerf.PollData` (restperf.go lines 453-458 and 735-901) as a pure
state transformer.  Input: the perf properties, the object query, the cached
previous-sample matrix (`r.Matrix`) and the freshly fetched raw sample
(`newData`).  Output on success: the matrix emitted downstream (if any), the
new previous-sample cache and the new `isCacheEmpty` flag.  On the first poll
the raw sample is cached and nothing is emitted; otherwise the raw sample is
cloned for the cache before any processing mutates it. -/
def pollData (pp : PerfProp) (query : String) (prevM newData : SMatrix) :
    Except String (Option SMatrix × SMatrix × Bool) :=
  if (newData.getMetric "timestamp").isNone then
    .error "missing timestamp metric"
  else if pp.isCacheEmpty then
    .ok (none, newData, false)
  else
    .ok (some (pollDataResult pp query prevM newData), newData, false)

/-! ## RestPerf.PollCounter matrix effects (restperf.go lines 275-293 and 352-435) -/

/-- Mirrors `rest2.Metric` (template metric description) as used by
`processWorkLoadCounter`. -/
structure RMetric where
  label : String := ""
  name : String := ""
  metricType : String := ""
  exportable : Bool := true
deriving DecidableEq, Repr

/-- The synthetic timestamp block of `PollCounter` (restperf.go lines 275-285):
create the artificial metric only when absent, with property `raw` and
`exportable=false`. -/
def addTimestampIfAbsent (m : SMatrix) : SMatrix :=
  if (m.getMetric "timestamp").isSome then m
  else m.addMetric "timestamp" { name := "timestamp", property := "raw", exportable := false }

/-- Workload-detail metric registration step: ensure the column exists, then set
its display name and export flag from the template metric. -/
def ensureAndTag (m : SMatrix) (nm : String) (rm : RMetric) : SMatrix :=
  let m' := if (m.getMetric nm).isSome then m else m.addMetric nm { name := nm }
  m'.updateMetric nm (fun met => { met with name := rm.label, exportable := rm.exportable })

/-- One resource-map entry of `processWorkLoadCounter`: skip existing columns,
otherwise create the per-layer latency column (display name `resource_latency`,
label `resource`) and register its counter with denominator `ops`.  A missing
counter record for the service-time column is a hard failure (a nil map read in
the source). -/
def resourceMapStep (serviceName : String)
    (acc : Except String (SMatrix × List (String × Counter))) (p : String × String) :
    Except String (SMatrix × List (String × Counter)) :=
  match acc with
  | .error e => .error e
  | .ok (m, ci) =>
    if (m.getMetric p.1).isSome then
      .ok (m, ci)
    else
      match lookupKey serviceName ci with
      | none => .error "missing counter metadata for service_time"
      | some sc =>
          .ok (m.addMetric p.1 { name := "resource_latency", labels := [("resource", p.2)] },
            (p.1, ({ name := "resource_latency", counterType := sc.counterType,
                     unit := sc.unit, denominator := "ops" } : Counter)) :: ci)

/-- The template-metric registration loop of `processWorkLoadCounter`: every
property metric gets its column ensured and tagged. -/
def wdlEnsure (propMetrics : List (String × RMetric)) (m : SMatrix) : SMatrix :=
  propMetrics.foldl (fun acc p => ensureAndTag acc p.1 p.2) m

/-- The `ops` inference of `processWorkLoadCounter`: if an `ops` column already
exists nothing happens, otherwise it is created and its counter is derived from
the `visits` counter record (a missing record is a hard failure — a nil map
read in the source). -/
def wdlOps (counterInfo : List (String × Counter)) (visitsName : String) (m : SMatrix) :
    Except String (SMatrix × List (String × Counter)) :=
  if (m.getMetric "ops").isSome then .ok (m, counterInfo)
  else
    match lookupKey visitsName counterInfo with
    | none => .error "missing counter metadata for visits"
    | some vc =>
        .ok (m.addMetric "ops" { name := "ops" },
          ("ops", ({ name := "ops", counterType := vc.counterType,
                     unit := vc.unit } : Counter)) :: counterInfo)

/-- `processWorkLoadCounter` suppresses the three helper columns from export. -/
def wdlHide (m : SMatrix) : SMatrix :=
  ((m.updateMetric "service_time" (fun met => { met with exportable := false })).updateMetric
      "wait_time" (fun met => { met with exportable := false })).updateMetric
    "visits" (fun met => { met with exportable := false })

/-- Mirrors `processWorkLoadCounter` (restperf.go lines 352-435).  For
workload-detail objects: register every template metric column, require the
`service_time`/`wait_time`/`visits` columns, infer the `ops` counter from
`visits`, suppress the three helper columns from export, and distribute the
per-resource-layer latency columns named after the resource map.  For every
other object it does nothing. -/
def processWorkLoadCounter (query : String) (propMetrics : List (String × RMetric))
    (resourceMap : Option (List (String × String))) (counterInfo : List (String × Counter))
    (m : SMatrix) : Except String (SMatrix × List (String × Counter)) :=
  if !isWorkloadDetailObject query then .ok (m, counterInfo)
  else
    match (wdlEnsure propMetrics m).getMetric "service_time",
        (wdlEnsure propMetrics m).getMetric "wait_time",
        (wdlEnsure propMetrics m).getMetric "visits" with
    | some service, some _, some visits =>
        match wdlOps counterInfo visits.name (wdlEnsure propMetrics m) with
        | .error e => .error e
        | .ok (m₂, ci₂) =>
            match resourceMap with
            | none => .error "missing resource_map"
            | some rmap =>
                rmap.foldl (resourceMapStep service.name) (.ok (wdlHide m₂, ci₂))
    | _, _, _ => .error "workload metrics"

/-- Matrix effect of one successful `RestPerf.PollCounter` (restperf.go lines
191-293): the counter-schema passes touch only `Prop.Metrics` and
`perfProp.counterInfo`; the matrix itself changes through the synthetic
timestamp block followed by `processWorkLoadCounter`. -/
def pollCounterMatrix (query : String) (propMetrics : List (String × RMetric))
    (resourceMap : Option (List (String × String))) (counterInfo : List (String × Counter))
    (m : SMatrix) : Except String (SMatrix × List (String × Counter)) :=
  processWorkLoadCounter query propMetrics resourceMap counterInfo (addTimestampIfAbsent m)

/-- The observable timestamp state of a matrix: the stored `timestamp` metric
and the number of `timestamp` columns.  Every step of `PollCounter` after the
synthetic timestamp block preserves it. -/
def tsState (m : SMatrix) : Option SMetric × Nat :=
  (m.getMetric "timestamp", (m.metrics.map Prod.fst).count "timestamp")

/-! ## Collector selection (spec §4.5, §4.7)

The poller orchestrator source (`cmd/poller/poller.go`) is not part of the
source tree; only its tests are.  The definitions below are modelled from the
specification, constrained by the expectations of
`cmd/poller/poller_test.go`. -/

/-- Remote capability record (spec §3): version and capability flags. -/
structure Remote where
  version : String := ""
  zapisExist : Bool := false
  isDisaggregated : Bool := false
  isSanOptimized : Bool := false
deriving DecidableEq, Repr

/-- The zero capability record the poller starts with. -/
def emptyRemote : Remote := {}

/-- Modelled from the spec (§4.5, `upgradeCollector`): if ZAPIs are gone, `Zapi`
upgrades to `Rest` and `ZapiPerf` to `RestPerf`; on disaggregated clusters the
performance collectors upgrade to `KeyPerf`, and additionally `Zapi` upgrades
to `Rest` when the cluster is SAN-optimized; every other class — including a
requested `KeyPerf` — is returned unchanged. -/
def upgradeCollector (name : String) (remote : Remote) : String :=
  let name :=
    if !remote.zapisExist then
      if name = "Zapi" then "Rest"
      else if name = "ZapiPerf" then "RestPerf"
      else name
    else name
  if remote.isDisaggregated then
    if name = "RestPerf" ∨ name = "ZapiPerf" then "KeyPerf"
    else if remote.isSanOptimized ∧ name = "Zapi" then "Rest"
    else name
  else name

/-- Modelled from the spec (§4.5): one (collector class, object) pair. -/
structure ObjectCollector where
  className : String
  object : String
deriving DecidableEq, Repr

/-- Modelled from the spec (§4.5 overlap table, constrained by
`Test_uniquifyObjectCollectors`): the chosen `Zapi` inventory collector shadows
a `Rest` collector chosen for another object (the Zapi qtree template already
gathers the quota data the Rest collector would duplicate). -/
def overlapShadows (a b : String) : Bool :=
  a = "Zapi" && b = "Rest"

/-- First listed collector class for each object, as an object collector. -/
def chosenCollectors (input : List (String × List String)) : List ObjectCollector :=
  input.filterMap (fun p => p.2.head?.map (fun c => ⟨c, p.1⟩))

/-- Modelled from the spec (§4.5, testable property 8.7): pick the first listed
collector class for each object, then drop every object whose chosen class is
shadowed by the class chosen for another object. -/
def uniquifyObjectCollectors (input : List (String × List String)) : List ObjectCollector :=
  let chosen := chosenCollectors input
  chosen.filter (fun oc =>
    !(chosen.any (fun oc2 => oc2.object ≠ oc.object && overlapShadows oc2.className oc.className)))

/-- Modelled from the spec: the ONTAP collector classes of §4.5. -/
def ontapCollectorNames : List String :=
  ["Zapi", "ZapiPerf", "Rest", "RestPerf", "KeyPerf"]

/-- The same perf properties with one registered counter's type replaced; used
to compare `percent` processing against the processing the same metric would
receive as `average`. -/
def replaceCounterType (pp : PerfProp) (k : String) (t : String) : PerfProp :=
  { pp with counterInfo :=
      mapVals (fun k' c => if k' = k then { c with counterType := t } else c) pp.counterInfo }

/-- Concrete sample counter metadata used by the witness theorems: one plain
delta counter, one latency average over it, one percent counter over it, one
rate counter and one raw counter. -/
def ppFix : PerfProp :=
  { isCacheEmpty := false, latencyIoReqd := 10,
    counterInfo :=
      [("total_ops", { name := "total_ops", counterType := "delta" }),
       ("read_latency", { name := "read_latency", counterType := "average",
                          denominator := "total_ops", unit := "us" }),
       ("busy_pct", { name := "busy_pct", counterType := "percent",
                      denominator := "total_ops" }),
       ("throughput", { name := "throughput", counterType := "rate" }),
       ("uptime", { name := "uptime", counterType := "raw" })] }

/-- Concrete raw sample (current poll) used by the witness theorems. -/
def curFix : SMatrix :=
  ⟨[("timestamp", { name := "timestamp", property := "raw", exportable := false,
                    cells := [some 110] }),
    ("total_ops", { name := "total_ops", cells := [some 300] }),
    ("read_latency", { name := "read_latency", cells := [some 5000] }),
    ("busy_pct", { name := "busy_pct", cells := [some 80] }),
    ("throughput", { name := "throughput", cells := [some 1000] }),
    ("uptime", { name := "uptime", cells := [some 999] })]⟩

/-- Concrete previous sample used by the witness theorems. -/
def prevFix : SMatrix :=
  ⟨[("timestamp", { name := "timestamp", property := "raw", exportable := false,
                    cells := [some 100] }),
    ("total_ops", { name := "total_ops", cells := [some 100] }),
    ("read_latency", { name := "read_latency", cells := [some 1000] }),
    ("busy_pct", { name := "busy_pct", cells := [some 30] }),
    ("throughput", { name := "throughput", cells := [some 200] }),
    ("uptime", { name := "uptime", cells := [some 5] })]⟩

/-- Modelled from the spec (§4.7 startup sequence, constrained by
`TestNegotiateONTAPAPI`): the capability probe runs only when an ONTAP
collector is requested; its outcome is the pair of the gathered record and an
optional error.  The record the probe returned is kept either way — a probe
error is non-fatal — and without an ONTAP collector the record stays empty. -/
def negotiateONTAPAPI (collectors : List String) (probe : Remote × Option String) : Remote :=
  if collectors.any (fun c => ontapCollectorNames.contains c) then probe.1
  else emptyRemote

end Harvest

namespace Harvest

/-! ## Association-list and matrix lemmas -/

theorem lookupKey_mapVals {β : Type} (f : String → β → β) (k : String)
    (l : List (String × β)) : lookupKey k (mapVals f l) = (lookupKey k l).map (f k) := by
  induction l with
  | nil => rfl
  | cons p rest ih =>
      by_cases h : p.1 = k
      · subst h
        simp [lookupKey, mapVals]
      · simp only [lookupKey, mapVals, List.map_cons, h, if_neg, if_false]
        exact ih

theorem keys_mapVals {β : Type} (f : String → β → β) (l : List (String × β)) :
    (mapVals f l).map Prod.fst = l.map Prod.fst := by
  induction l with
  | nil => rfl
  | cons p rest _ => simp [mapVals]

theorem lookupKey_mem {β : Type} {k : String} {v : β} {l : List (String × β)}
    (h : lookupKey k l = some v) : (k, v) ∈ l := by
  induction l with
  | nil => simp [lookupKey] at h
  | cons p rest ih =>
      by_cases hp : p.1 = k
      · simp only [lookupKey, hp, if_pos, Option.some.injEq] at h
        have : p = (k, v) := Prod.ext hp h
        rw [← this]
        exact List.mem_cons_self p rest
      · simp only [lookupKey, hp, if_neg, if_false] at h
        exact List.mem_cons_of_mem _ (ih h)

theorem lookupKey_isSome_iff {β : Type} (k : String) (l : List (String × β)) :
    (lookupKey k l).isSome ↔ k ∈ l.map Prod.fst := by
  induction l with
  | nil => simp [lookupKey]
  | cons p rest ih =>
      by_cases hp : p.1 = k
      · simp [lookupKey, hp]
      · simp [lookupKey, hp, ih, Ne.symm hp]

theorem pairs_eq_of_nodup_keys {β : Type} {l : List (String × β)}
    (hnd : (l.map Prod.fst).Nodup) {p₁ p₂ : String × β}
    (h₁ : p₁ ∈ l) (h₂ : p₂ ∈ l) (hk : p₁.1 = p₂.1) : p₁ = p₂ := by
  induction l with
  | nil => simp at h₁
  | cons q rest ih =>
      simp only [List.map_cons, List.nodup_cons] at hnd
      rcases List.mem_cons.mp h₁ with h₁ | h₁ <;> rcases List.mem_cons.mp h₂ with h₂ | h₂
      · rw [h₁, h₂]
      · exfalso
        apply hnd.1
        have : p₂.1 = q.1 := by rw [← hk, h₁]
        exact this ▸ List.mem_map_of_mem Prod.fst h₂
      · exfalso
        apply hnd.1
        have : p₁.1 = q.1 := by rw [hk, h₂]
        exact this ▸ List.mem_map_of_mem Prod.fst h₁
      · exact ih hnd.2 h₁ h₂

theorem lookupKey_of_mem_nodup {β : Type} {l : List (String × β)}
    (hnd : (l.map Prod.fst).Nodup) {k : String} {v : β} (h : (k, v) ∈ l) :
    lookupKey k l = some v := by
  induction l with
  | nil => simp at h
  | cons p rest ih =>
      simp only [List.map_cons, List.nodup_cons] at hnd
      rcases List.mem_cons.mp h with h | h
      · rw [← h]
        simp [lookupKey]
      · have hne : p.1 ≠ k := by
          intro he
          exact hnd.1 (he ▸ List.mem_map_of_mem Prod.fst h)
        simp only [lookupKey, hne, if_neg, if_false]
        exact ih hnd.2 h

theorem getMetric_updateMetric_self (m : SMatrix) (k : String) (f : SMetric → SMetric) :
    (m.updateMetric k f).getMetric k = (m.getMetric k).map f := by
  unfold SMatrix.updateMetric SMatrix.getMetric
  rw [lookupKey_mapVals]
  cases lookupKey k m.metrics <;> simp

theorem getMetric_updateMetric_ne (m : SMatrix) {k' k : String} (f : SMetric → SMetric)
    (h : k ≠ k') : (m.updateMetric k' f).getMetric k = m.getMetric k := by
  unfold SMatrix.updateMetric SMatrix.getMetric
  rw [lookupKey_mapVals]
  cases lookupKey k m.metrics <;> simp [h]

theorem keys_updateMetric (m : SMatrix) (k : String) (f : SMetric → SMetric) :
    (m.updateMetric k f).metrics.map Prod.fst = m.metrics.map Prod.fst := by
  show (mapVals (fun k' met => if k' = k then f met else met) m.metrics).map Prod.fst
    = m.metrics.map Prod.fst
  exact keys_mapVals _ _

end Harvest

namespace Harvest

/-! ## Processing-step lemmas -/

/-- The metric fields the data post-processing never changes. -/
def SMetric.shape (m : SMetric) : String × Bool × Bool × String :=
  (m.name, m.isArray, m.exportable, m.property)

theorem counterLookup_congr (pp : PerfProp) {m₁ m₂ : SMetric} (k : String)
    (h : m₁.isArray = m₂.isArray) : counterLookup pp m₁ k = counterLookup pp m₂ k := by
  unfold counterLookup
  rw [h]

theorem getMetric_processOne_ne (pp : PerfProp) (prevM st : SMatrix) (key : String)
    {k : String} (h : k ≠ key) :
    (processOne pp prevM st key).getMetric k = st.getMetric k := by
  unfold processOne processDenom deltaStep divideStep scaleStep
  repeat' split
  all_goals simp [getMetric_updateMetric_ne _ _ h]

theorem keys_processOne (pp : PerfProp) (prevM st : SMatrix) (key : String) :
    (processOne pp prevM st key).metrics.map Prod.fst = st.metrics.map Prod.fst := by
  unfold processOne processDenom deltaStep divideStep scaleStep
  repeat' split
  all_goals simp [keys_updateMetric]

theorem shapeAt_updateMetric_cellsOnly (st : SMatrix) (key k : String)
    (f : SMetric → SMetric) (hf : ∀ met, (f met).shape = met.shape) :
    (((st.updateMetric key f).getMetric k).map SMetric.shape)
      = ((st.getMetric k).map SMetric.shape) := by
  by_cases hk : k = key
  · subst hk
    rw [getMetric_updateMetric_self]
    cases st.getMetric k <;> simp [hf]
  · rw [getMetric_updateMetric_ne _ _ hk]

theorem shape_update_cells (met : SMetric) (cs : Cells) :
    ({ met with cells := cs } : SMetric).shape = met.shape := rfl

theorem cells_update_cells (met : SMetric) (cs : Cells) :
    ({ met with cells := cs } : SMetric).cells = cs := rfl

theorem shapeAt_deltaStep (pmet : SMetric) (st : SMatrix) (key k : String) :
    (((deltaStep pmet st key).getMetric k).map SMetric.shape)
      = ((st.getMetric k).map SMetric.shape) := by
  unfold deltaStep
  refine shapeAt_updateMetric_cellsOnly _ _ _ _ (fun met => shape_update_cells met _)

theorem shapeAt_divideStep (pp : PerfProp) (base : SMetric) (st : SMatrix) (key k : String) :
    (((divideStep pp base st key).getMetric k).map SMetric.shape)
      = ((st.getMetric k).map SMetric.shape) := by
  unfold divideStep
  refine shapeAt_updateMetric_cellsOnly _ _ _ _ (fun met => shape_update_cells met _)

theorem shapeAt_scaleStep (st : SMatrix) (key k : String) :
    (((scaleStep st key).getMetric k).map SMetric.shape)
      = ((st.getMetric k).map SMetric.shape) := by
  unfold scaleStep
  refine shapeAt_updateMetric_cellsOnly _ _ _ _ (fun met => shape_update_cells met _)

theorem shapeAt_rateStep (ts : SMetric) (st : SMatrix) (key k : String) :
    (((rateStep ts st key).getMetric k).map SMetric.shape)
      = ((st.getMetric k).map SMetric.shape) := by
  unfold rateStep
  refine shapeAt_updateMetric_cellsOnly _ _ _ _ (fun met => shape_update_cells met _)

theorem shapeAt_processOne (pp : PerfProp) (prevM st : SMatrix) (key k : String) :
    (((processOne pp prevM st key).getMetric k).map SMetric.shape)
      = ((st.getMetric k).map SMetric.shape) := by
  unfold processOne processDenom
  repeat' split
  all_goals simp [shapeAt_deltaStep, shapeAt_divideStep, shapeAt_scaleStep]

theorem getMetric_processRate_ne (pp : PerfProp) (st : SMatrix) (key : String)
    {k : String} (h : k ≠ key) :
    (processRate pp st key).getMetric k = st.getMetric k := by
  unfold processRate rateStep
  repeat' split
  all_goals simp [getMetric_updateMetric_ne _ _ h]

theorem keys_processRate (pp : PerfProp) (st : SMatrix) (key : String) :
    (processRate pp st key).metrics.map Prod.fst = st.metrics.map Prod.fst := by
  unfold processRate rateStep
  repeat' split
  all_goals simp [keys_updateMetric]

theorem shapeAt_processRate (pp : PerfProp) (st : SMatrix) (key k : String) :
    (((processRate pp st key).getMetric k).map SMetric.shape)
      = ((st.getMetric k).map SMetric.shape) := by
  unfold processRate
  repeat' split
  all_goals simp [shapeAt_rateStep]

theorem processOne_raw (pp : PerfProp) (prevM st : SMatrix) (key : String)
    {metric : SMetric} {c : Counter}
    (hst : st.getMetric key = some metric)
    (hc : counterLookup pp metric key = some c)
    (h1 : c.counterType = "raw") :
    processOne pp prevM st key = st := by
  unfold processOne
  repeat' split
  all_goals simp_all

theorem processOne_delta (pp : PerfProp) (prevM st : SMatrix) (key : String)
    {metric pmet : SMetric} {c : Counter}
    (hst : st.getMetric key = some metric)
    (hc : counterLookup pp metric key = some c)
    (ht : c.counterType = "delta" ∨ c.counterType = "rate")
    (hp : prevM.getMetric key = some pmet) :
    processOne pp prevM st key = deltaStep pmet st key := by
  unfold processOne
  repeat' split
  all_goals simp_all

theorem processOne_avg (pp : PerfProp) (prevM st : SMatrix) (key : String)
    {metric pmet base : SMetric} {c : Counter}
    (hst : st.getMetric key = some metric)
    (hc : counterLookup pp metric key = some c)
    (ht : c.counterType = "average")
    (hp : prevM.getMetric key = some pmet)
    (hb : (deltaStep pmet st key).getMetric c.denominator = some base) :
    processOne pp prevM st key = divideStep pp base (deltaStep pmet st key) key := by
  unfold processOne processDenom
  repeat' split
  all_goals simp_all

theorem processOne_pct (pp : PerfProp) (prevM st : SMatrix) (key : String)
    {metric pmet base : SMetric} {c : Counter}
    (hst : st.getMetric key = some metric)
    (hc : counterLookup pp metric key = some c)
    (ht : c.counterType = "percent")
    (hp : prevM.getMetric key = some pmet)
    (hb : (deltaStep pmet st key).getMetric c.denominator = some base) :
    processOne pp prevM st key
      = scaleStep (divideStep pp base (deltaStep pmet st key) key) key := by
  unfold processOne processDenom
  repeat' split
  all_goals simp_all

theorem processRate_nonrate (pp : PerfProp) (st : SMatrix) (key : String)
    {metric : SMetric} {c : Counter}
    (hst : st.getMetric key = some metric)
    (hc : counterLookup pp metric key = some c)
    (ht : c.counterType ≠ "rate") :
    processRate pp st key = st := by
  unfold processRate
  repeat' split
  all_goals simp_all

theorem processRate_rate (pp : PerfProp) (st : SMatrix) (key : String)
    {metric ts : SMetric} {c : Counter}
    (hst : st.getMetric key = some metric)
    (hc : counterLookup pp metric key = some c)
    (ht : c.counterType = "rate")
    (hts : st.getMetric "timestamp" = some ts) :
    processRate pp st key = rateStep ts st key := by
  unfold processRate
  repeat' split
  all_goals simp_all

/-! ## Pass-level lemmas -/

theorem pass1_nil (pp : PerfProp) (prevM st : SMatrix) : pass1 pp prevM st [] = st := rfl

theorem pass1_cons (pp : PerfProp) (prevM st : SMatrix) (a : String) (l : List String) :
    pass1 pp prevM st (a :: l) = pass1 pp prevM (processOne pp prevM st a) l := rfl

theorem pass1_append (pp : PerfProp) (prevM st : SMatrix) (l₁ l₂ : List String) :
    pass1 pp prevM st (l₁ ++ l₂) = pass1 pp prevM (pass1 pp prevM st l₁) l₂ :=
  List.foldl_append _ _ _ _

theorem getMetric_pass1_notMem (pp : PerfProp) (prevM : SMatrix) {k : String}
    {keys : List String} (h : k ∉ keys) (st : SMatrix) :
    (pass1 pp prevM st keys).getMetric k = st.getMetric k := by
  induction keys generalizing st with
  | nil => rfl
  | cons a rest ih =>
      rw [pass1_cons]
      have hka : k ≠ a := fun he => h (he ▸ List.mem_cons_self a rest)
      rw [ih (fun hm => h (List.mem_cons_of_mem a hm)) _,
        getMetric_processOne_ne pp prevM st a hka]

theorem keys_pass1 (pp : PerfProp) (prevM : SMatrix) (keys : List String) (st : SMatrix) :
    (pass1 pp prevM st keys).metrics.map Prod.fst = st.metrics.map Prod.fst := by
  induction keys generalizing st with
  | nil => rfl
  | cons a rest ih => rw [pass1_cons, ih, keys_processOne]

theorem shapeAt_pass1 (pp : PerfProp) (prevM : SMatrix) (keys : List String)
    (st : SMatrix) (k : String) :
    (((pass1 pp prevM st keys).getMetric k).map SMetric.shape)
      = ((st.getMetric k).map SMetric.shape) := by
  induction keys generalizing st with
  | nil => rfl
  | cons a rest ih => rw [pass1_cons, ih, shapeAt_processOne]

theorem pass1_turn (pp : PerfProp) (prevM st : SMatrix) {l₁ l₂ : List String} {k : String}
    (hk₂ : k ∉ l₂) :
    (pass1 pp prevM st (l₁ ++ k :: l₂)).getMetric k
      = (processOne pp prevM (pass1 pp prevM st l₁) k).getMetric k := by
  rw [pass1_append, pass1_cons, getMetric_pass1_notMem pp prevM hk₂]

theorem pass2_nil (pp : PerfProp) (st : SMatrix) : pass2 pp st [] = st := rfl

theorem pass2_cons (pp : PerfProp) (st : SMatrix) (a : String) (l : List String) :
    pass2 pp st (a :: l) = pass2 pp (processRate pp st a) l := rfl

theorem pass2_append (pp : PerfProp) (st : SMatrix) (l₁ l₂ : List String) :
    pass2 pp st (l₁ ++ l₂) = pass2 pp (pass2 pp st l₁) l₂ :=
  List.foldl_append _ _ _ _

theorem getMetric_pass2_notMem (pp : PerfProp) {k : String}
    {keys : List String} (h : k ∉ keys) (st : SMatrix) :
    (pass2 pp st keys).getMetric k = st.getMetric k := by
  induction keys generalizing st with
  | nil => rfl
  | cons a rest ih =>
      rw [pass2_cons]
      have hka : k ≠ a := fun he => h (he ▸ List.mem_cons_self a rest)
      rw [ih (fun hm => h (List.mem_cons_of_mem a hm)) _,
        getMetric_processRate_ne pp st a hka]

theorem keys_pass2 (pp : PerfProp) (keys : List String) (st : SMatrix) :
    (pass2 pp st keys).metrics.map Prod.fst = st.metrics.map Prod.fst := by
  induction keys generalizing st with
  | nil => rfl
  | cons a rest ih => rw [pass2_cons, ih, keys_processRate]

theorem pass2_turn (pp : PerfProp) (st : SMatrix) {l₁ l₂ : List String} {k : String}
    (hk₂ : k ∉ l₂) :
    (pass2 pp st (l₁ ++ k :: l₂)).getMetric k
      = (processRate pp (pass2 pp st l₁) k).getMetric k := by
  rw [pass2_append, pass2_cons, getMetric_pass2_notMem pp hk₂]

/-! ## Stage lemmas (unit labels and timestamp delta) -/

theorem getMetric_setUnitLabels (pp : PerfProp) (query : String) (m : SMatrix)
    (k : String) :
    (setUnitLabels pp query m).getMetric k
      = if isWorkloadDetailObject query then m.getMetric k
        else (m.getMetric k).map (unitLabelFn pp k) := by
  unfold setUnitLabels
  split
  · simp [*]
  · simp only [SMatrix.getMetric]
    rw [lookupKey_mapVals]

theorem shape_unitLabelFn (pp : PerfProp) (k : String) (met : SMetric) :
    (unitLabelFn pp k met).shape = met.shape := by
  unfold unitLabelFn
  split
  · split <;> rfl
  · rfl

theorem cells_unitLabelFn (pp : PerfProp) (k : String) (met : SMetric) :
    (unitLabelFn pp k met).cells = met.cells := by
  unfold unitLabelFn
  split
  · split <;> rfl
  · rfl

theorem shape_fields (met : SMetric) :
    met.shape = (met.name, met.isArray, met.exportable, met.property) := rfl

theorem shape_setLabel (met : SMetric) (a b : String) :
    (met.setLabel a b).shape = met.shape := rfl

theorem cells_setLabel (met : SMetric) (a b : String) :
    (met.setLabel a b).cells = met.cells := rfl

theorem shapeAt_setUnitLabels (pp : PerfProp) (query : String) (m : SMatrix) (k : String) :
    (((setUnitLabels pp query m).getMetric k).map SMetric.shape)
      = ((m.getMetric k).map SMetric.shape) := by
  rw [getMetric_setUnitLabels]
  split
  · rfl
  · cases m.getMetric k <;> simp [shape_unitLabelFn]

theorem cellsAt_setUnitLabels (pp : PerfProp) (query : String) (m : SMatrix) (k : String) :
    (((setUnitLabels pp query m).getMetric k).map SMetric.cells)
      = ((m.getMetric k).map SMetric.cells) := by
  rw [getMetric_setUnitLabels]
  split
  · rfl
  · cases m.getMetric k <;> simp [cells_unitLabelFn]

theorem keys_setUnitLabels (pp : PerfProp) (query : String) (m : SMatrix) :
    (setUnitLabels pp query m).metrics.map Prod.fst = m.metrics.map Prod.fst := by
  unfold setUnitLabels
  split
  · rfl
  · exact keys_mapVals _ _

theorem getMetric_timestampDelta_ne (prevM m : SMatrix) {k : String}
    (h : k ≠ "timestamp") :
    (timestampDelta prevM m).getMetric k = m.getMetric k := by
  unfold timestampDelta
  split
  · rfl
  · exact getMetric_updateMetric_ne _ _ h

theorem getMetric_timestampDelta_ts (prevM m : SMatrix) {pts : SMetric}
    (hp : prevM.getMetric "timestamp" = some pts) :
    (timestampDelta prevM m).getMetric "timestamp"
      = (m.getMetric "timestamp").map
          (fun ts => { ts with cells := deltaCells ts.cells pts.cells }) := by
  unfold timestampDelta
  split
  · simp_all
  · next pts' hp' =>
      rw [hp] at hp'
      cases hp'
      exact getMetric_updateMetric_self _ _ _

theorem keys_timestampDelta (prevM m : SMatrix) :
    (timestampDelta prevM m).metrics.map Prod.fst = m.metrics.map Prod.fst := by
  unfold timestampDelta
  split
  · rfl
  · exact keys_updateMetric _ _ _

/-! ## Ordering lemmas for the partition loop -/

theorem orderedMetricKeys_split (pp : PerfProp) (m : SMatrix) :
    orderedMetricKeys pp m
      = ((eligiblePairs pp m).filter (fun p => !hasDenominator pp p)).map Prod.fst
        ++ ((eligiblePairs pp m).filter (fun p => hasDenominator pp p)).map Prod.fst := by
  unfold orderedMetricKeys orderedPairs
  rw [List.map_append]

theorem eligiblePairs_sublist (pp : PerfProp) (m : SMatrix) :
    List.Sublist (eligiblePairs pp m) m.metrics :=
  List.filter_sublist _

theorem nodup_keys_eligiblePairs (pp : PerfProp) {m : SMatrix}
    (hnd : (m.metrics.map Prod.fst).Nodup) :
    ((eligiblePairs pp m).map Prod.fst).Nodup :=
  List.Nodup.sublist ((eligiblePairs_sublist pp m).map Prod.fst) hnd

theorem mem_metrics_of_mem_eligible (pp : PerfProp) {m : SMatrix} {p : String × SMetric}
    (h : p ∈ eligiblePairs pp m) : p ∈ m.metrics :=
  (eligiblePairs_sublist pp m).subset h

theorem nodup_orderedMetricKeys (pp : PerfProp) {m : SMatrix}
    (hnd : (m.metrics.map Prod.fst).Nodup) :
    (orderedMetricKeys pp m).Nodup := by
  rw [orderedMetricKeys_split]
  have he := nodup_keys_eligiblePairs pp hnd
  refine List.Nodup.append
    (List.Nodup.sublist ((List.filter_sublist _).map Prod.fst) he)
    (List.Nodup.sublist ((List.filter_sublist _).map Prod.fst) he) ?_
  intro a ha hb
  obtain ⟨p₁, hp₁, hk₁⟩ := List.mem_map.mp ha
  obtain ⟨p₂, hp₂, hk₂⟩ := List.mem_map.mp hb
  obtain ⟨hm₁, hf₁⟩ := List.mem_filter.mp hp₁
  obtain ⟨hm₂, hf₂⟩ := List.mem_filter.mp hp₂
  have hpe : p₁ = p₂ := pairs_eq_of_nodup_keys he hm₁ hm₂ (hk₁.trans hk₂.symm)
  rw [hpe] at hf₁
  rw [hf₂] at hf₁
  simp at hf₁

theorem mem_eligiblePairs (pp : PerfProp) {m : SMatrix} {k : String} {met : SMetric}
    (hget : m.getMetric k = some met)
    (hname : met.name ≠ "timestamp")
    (hc : (counterLookup pp met k).isSome) :
    (k, met) ∈ eligiblePairs pp m := by
  unfold eligiblePairs
  refine List.mem_filter.mpr ⟨lookupKey_mem hget, ?_⟩
  simp [hname, hc]

theorem ts_notMem_orderedKeys (pp : PerfProp) {m : SMatrix} {tsm : SMetric}
    (hnd : (m.metrics.map Prod.fst).Nodup)
    (hts : m.getMetric "timestamp" = some tsm)
    (htsn : tsm.name = "timestamp") :
    "timestamp" ∉ orderedMetricKeys pp m := by
  rw [orderedMetricKeys_split]
  intro hmem
  have hkey : ∀ p : String × SMetric, p ∈ eligiblePairs pp m → p.1 ≠ "timestamp" := by
    intro p hp hpk
    have hpm : p ∈ m.metrics := mem_metrics_of_mem_eligible pp hp
    have htm : (("timestamp" : String), tsm) ∈ m.metrics := lookupKey_mem hts
    have hpe : p = ("timestamp", tsm) := pairs_eq_of_nodup_keys hnd hpm htm hpk
    have := (List.mem_filter.mp hp).2
    rw [hpe] at this
    simp [htsn] at this
  rcases List.mem_append.mp hmem with h | h <;>
    · obtain ⟨p, hp, hpk⟩ := List.mem_map.mp h
      exact hkey p (List.mem_filter.mp hp).1 hpk

/-- Split of a duplicate-free list at a member. -/
theorem split_at_mem_nodup {k : String} {l : List String}
    (hnd : l.Nodup) (h : k ∈ l) :
    ∃ l₁ l₂, l = l₁ ++ k :: l₂ ∧ k ∉ l₁ ∧ k ∉ l₂ := by
  obtain ⟨s, t, rfl⟩ := List.append_of_mem h
  rw [List.nodup_append] at hnd
  refine ⟨s, t, rfl, fun hs => ?_, (List.nodup_cons.mp hnd.2.1).1⟩
  exact hnd.2.2 hs (List.mem_cons_self k t)

/-! ## Metric values through the processing pipeline -/

theorem name_eq_of_shape {m₁ m₂ : SMetric} (h : m₁.shape = m₂.shape) :
    m₁.name = m₂.name := congrArg Prod.fst h

theorem isArray_eq_of_shape {m₁ m₂ : SMetric} (h : m₁.shape = m₂.shape) :
    m₁.isArray = m₂.isArray := congrArg (fun s => s.2.1) h

/-- The pre-pass state (unit labels set, timestamp deltified) keeps every
non-timestamp column's cells and shape. -/
theorem preState_getMetric (pp : PerfProp) (query : String) (prevM cur : SMatrix)
    {k : String} {met : SMetric}
    (hk : cur.getMetric k = some met) (hkts : k ≠ "timestamp") :
    ∃ met₀, (timestampDelta prevM (setUnitLabels pp query cur)).getMetric k = some met₀
      ∧ met₀.cells = met.cells ∧ met₀.shape = met.shape := by
  rw [getMetric_timestampDelta_ne _ _ hkts, getMetric_setUnitLabels]
  split
  · exact ⟨met, hk, rfl, rfl⟩
  · rw [hk]
    exact ⟨unitLabelFn pp k met, rfl, cells_unitLabelFn pp k met, shape_unitLabelFn pp k met⟩

/-- The pre-pass state's timestamp column is the deltified timestamp. -/
theorem preState_ts (pp : PerfProp) (query : String) (prevM cur : SMatrix)
    {tsm ptsm : SMetric}
    (hts : cur.getMetric "timestamp" = some tsm) (htsn : tsm.name = "timestamp")
    (hpts : prevM.getMetric "timestamp" = some ptsm) :
    (timestampDelta prevM (setUnitLabels pp query cur)).getMetric "timestamp"
      = some { tsm with cells := deltaCells tsm.cells ptsm.cells } := by
  rw [getMetric_timestampDelta_ts _ _ hpts, getMetric_setUnitLabels]
  split
  · rw [hts]
    rfl
  · rw [hts]
    simp [unitLabelFn, htsn]

/-- Membership of an eligible metric key in the processing order. -/
theorem mem_orderedKeys (pp : PerfProp) {m : SMatrix} {k : String} {met : SMetric}
    (hget : m.getMetric k = some met)
    (hname : met.name ≠ "timestamp")
    (hc : (counterLookup pp met k).isSome) :
    k ∈ orderedMetricKeys pp m := by
  have helig := mem_eligiblePairs pp hget hname hc
  rw [orderedMetricKeys_split]
  by_cases hdb : hasDenominator pp (k, met)
  · exact List.mem_append_right _
      (List.mem_map_of_mem Prod.fst (List.mem_filter.mpr ⟨helig, by simp [hdb]⟩))
  · exact List.mem_append_left _
      (List.mem_map_of_mem Prod.fst (List.mem_filter.mpr ⟨helig, by simp [hdb]⟩))

/-- After the first pass, a `delta` or `rate` counter holds exactly the delta of
its raw cells against the previous sample. -/
theorem pass1State_cells_deltaOrRate (pp : PerfProp) (query : String)
    (prevM cur : SMatrix) {k : String} {met pk : SMetric} {c : Counter}
    (hnd : (cur.metrics.map Prod.fst).Nodup)
    (hk : cur.getMetric k = some met)
    (hkname : met.name ≠ "timestamp")
    (hkts : k ≠ "timestamp")
    (hc : counterLookup pp met k = some c)
    (hct : c.counterType = "delta" ∨ c.counterType = "rate")
    (hpk : prevM.getMetric k = some pk) :
    ∃ met₁, (pollDataPass1State pp query prevM cur).getMetric k = some met₁
      ∧ met₁.cells = deltaCells met.cells pk.cells ∧ met₁.shape = met.shape := by
  have hcs : (counterLookup pp met k).isSome := by rw [hc]; rfl
  have hmem := mem_orderedKeys pp hk hkname hcs
  have hndk := nodup_orderedMetricKeys pp (m := cur) hnd
  obtain ⟨l₁, l₂, hsplit, h₁, h₂⟩ := split_at_mem_nodup hndk hmem
  obtain ⟨met₀, hm₀, hc₀, hs₀⟩ := preState_getMetric pp query prevM cur hk hkts
  unfold pollDataPass1State
  rw [hsplit, pass1_turn _ _ _ h₂]
  have hS : (pass1 pp prevM (timestampDelta prevM (setUnitLabels pp query cur)) l₁).getMetric k
      = some met₀ := by
    rw [getMetric_pass1_notMem pp prevM h₁ _, hm₀]
  have hc' : counterLookup pp met₀ k = some c := by
    rw [counterLookup_congr pp k (isArray_eq_of_shape hs₀), hc]
  rw [processOne_delta pp prevM _ k hS hc' hct hpk]
  unfold deltaStep
  rw [getMetric_updateMetric_self, hS]
  exact ⟨_, rfl, by simp [hc₀], hs₀⟩

/-- A raw counter's cells survive the full post-processing verbatim. -/
theorem pollDataResult_cells_raw (pp : PerfProp) (query : String)
    (prevM cur : SMatrix) {k : String} {met : SMetric} {c : Counter}
    (hnd : (cur.metrics.map Prod.fst).Nodup)
    (hk : cur.getMetric k = some met)
    (hkname : met.name ≠ "timestamp")
    (hkts : k ≠ "timestamp")
    (hc : counterLookup pp met k = some c)
    (hct : c.counterType = "raw") :
    ((pollDataResult pp query prevM cur).getMetric k).map SMetric.cells
      = some met.cells := by
  have hcs : (counterLookup pp met k).isSome := by rw [hc]; rfl
  have hmem := mem_orderedKeys pp hk hkname hcs
  have hndk := nodup_orderedMetricKeys pp (m := cur) hnd
  obtain ⟨l₁, l₂, hsplit, h₁, h₂⟩ := split_at_mem_nodup hndk hmem
  obtain ⟨met₀, hm₀, hc₀, hs₀⟩ := preState_getMetric pp query prevM cur hk hkts
  have hc' : counterLookup pp met₀ k = some c := by
    rw [counterLookup_congr pp k (isArray_eq_of_shape hs₀), hc]
  have hS1 : (pollDataPass1State pp query prevM cur).getMetric k = some met₀ := by
    unfold pollDataPass1State
    rw [hsplit, pass1_turn _ _ _ h₂,
      processOne_raw pp prevM _ k (by rw [getMetric_pass1_notMem pp prevM h₁ _, hm₀]) hc' hct,
      getMetric_pass1_notMem pp prevM h₁ _, hm₀]
  unfold pollDataResult
  rw [hsplit, pass2_turn _ _ h₂]
  have hS2 : (pass2 pp (pollDataPass1State pp query prevM cur) l₁).getMetric k
      = some met₀ := by
    rw [getMetric_pass2_notMem pp h₁ _]
    exact hS1
  rw [processRate_nonrate pp _ k hS2 hc' (by rw [hct]; decide), hS2]
  simp [hc₀]

/-- After the full post-processing, a `rate` counter holds its delta divided by
the timestamp delta. -/
theorem pollDataResult_cells_rate (pp : PerfProp) (query : String)
    (prevM cur : SMatrix) {k : String} {met pk tsm ptsm : SMetric} {c : Counter}
    (hnd : (cur.metrics.map Prod.fst).Nodup)
    (hk : cur.getMetric k = some met)
    (hkname : met.name ≠ "timestamp")
    (hkts : k ≠ "timestamp")
    (hc : counterLookup pp met k = some c)
    (hct : c.counterType = "rate")
    (hpk : prevM.getMetric k = some pk)
    (hts : cur.getMetric "timestamp" = some tsm)
    (htsn : tsm.name = "timestamp")
    (hpts : prevM.getMetric "timestamp" = some ptsm) :
    ((pollDataResult pp query prevM cur).getMetric k).map SMetric.cells
      = some (divideCells (deltaCells met.cells pk.cells)
          (deltaCells tsm.cells ptsm.cells)) := by
  have hcs : (counterLookup pp met k).isSome := by rw [hc]; rfl
  have hmem := mem_orderedKeys pp hk hkname hcs
  have hndk := nodup_orderedMetricKeys pp (m := cur) hnd
  obtain ⟨l₁, l₂, hsplit, h₁, h₂⟩ := split_at_mem_nodup hndk hmem
  obtain ⟨met₁, hm₁, hc₁, hs₁⟩ :=
    pass1State_cells_deltaOrRate pp query prevM cur hnd hk hkname hkts hc (Or.inr hct) hpk
  have hc' : counterLookup pp met₁ k = some c := by
    rw [counterLookup_congr pp k (isArray_eq_of_shape hs₁), hc]
  have htsmem : "timestamp" ∉ orderedMetricKeys pp cur :=
    ts_notMem_orderedKeys pp hnd hts htsn
  have hts1 : (pollDataPass1State pp query prevM cur).getMetric "timestamp"
      = some { tsm with cells := deltaCells tsm.cells ptsm.cells } := by
    unfold pollDataPass1State
    rw [getMetric_pass1_notMem pp prevM htsmem _]
    exact preState_ts pp query prevM cur hts htsn hpts
  have htsl₁ : "timestamp" ∉ l₁ := by
    intro hmm
    exact htsmem (hsplit ▸ List.mem_append_left _ hmm)
  unfold pollDataResult
  rw [hsplit, pass2_turn _ _ h₂]
  have hS2 : (pass2 pp (pollDataPass1State pp query prevM cur) l₁).getMetric k
      = some met₁ := by
    rw [getMetric_pass2_notMem pp h₁ _]
    exact hm₁
  have hS2ts : (pass2 pp (pollDataPass1State pp query prevM cur) l₁).getMetric "timestamp"
      = some { tsm with cells := deltaCells tsm.cells ptsm.cells } := by
    rw [getMetric_pass2_notMem pp htsl₁ _]
    exact hts1
  rw [processRate_rate pp _ k hS2 hc' hct hS2ts]
  unfold rateStep
  rw [getMetric_updateMetric_self, hS2]
  simp [hc₁]

/-- A metric whose counter is not a rate is untouched by the second pass. -/
theorem pollDataResult_getMetric_nonrate (pp : PerfProp) (query : String)
    (prevM cur : SMatrix) {k : String} {m₂ : SMetric} {c : Counter}
    (hnd : (cur.metrics.map Prod.fst).Nodup)
    (hmem : k ∈ orderedMetricKeys pp cur)
    (hm : (pollDataPass1State pp query prevM cur).getMetric k = some m₂)
    (hc : counterLookup pp m₂ k = some c)
    (hct : c.counterType ≠ "rate") :
    (pollDataResult pp query prevM cur).getMetric k = some m₂ := by
  have hndk := nodup_orderedMetricKeys pp (m := cur) hnd
  obtain ⟨l₁, l₂, hsplit, h₁, h₂⟩ := split_at_mem_nodup hndk hmem
  unfold pollDataResult
  rw [hsplit, pass2_turn _ _ h₂]
  have hS2 : (pass2 pp (pollDataPass1State pp query prevM cur) l₁).getMetric k = some m₂ := by
    rw [getMetric_pass2_notMem pp h₁ _]
    exact hm
  rw [processRate_nonrate pp _ k hS2 hc hct]
  exact hS2

set_option maxHeartbeats 1600000 in
/-- After the first pass, an `average` or `percent` counter holds its delta
divided by the delta of its base counter — thresholded for latency metrics —
and scaled by 100 for `percent`.  The base counter is required to be an
ordinary `delta` or `rate` counter without a base of its own, so its delta is
already in place when the dependent metric is processed. -/
theorem pass1State_cells_avgpct (pp : PerfProp) (query : String)
    (prevM cur : SMatrix) {k d : String} {met pk bmet pb : SMetric} {c bc : Counter}
    (hnd : (cur.metrics.map Prod.fst).Nodup)
    (hk : cur.getMetric k = some met)
    (hkname : met.name ≠ "timestamp")
    (hkts : k ≠ "timestamp")
    (hc : counterLookup pp met k = some c)
    (hct : c.counterType = "average" ∨ c.counterType = "percent")
    (hpk : prevM.getMetric k = some pk)
    (hd : c.denominator = d)
    (hdne : d ≠ "")
    (hdk : d ≠ k)
    (hdts : d ≠ "timestamp")
    (hb : cur.getMetric d = some bmet)
    (hbname : bmet.name ≠ "timestamp")
    (hbc : counterLookup pp bmet d = some bc)
    (hbct : bc.counterType = "delta" ∨ bc.counterType = "rate")
    (hbden : bc.denominator = "")
    (hpb : prevM.getMetric d = some pb) :
    ∃ met₂, (pollDataPass1State pp query prevM cur).getMetric k = some met₂
      ∧ met₂.shape = met.shape
      ∧ met₂.cells =
          (if c.counterType = "average" then
            avgPctCells (pp.latencyIoReqd : ℚ) met.name (deltaCells met.cells pk.cells)
              (deltaCells bmet.cells pb.cells)
          else
            multiplyCells (avgPctCells (pp.latencyIoReqd : ℚ) met.name
              (deltaCells met.cells pk.cells) (deltaCells bmet.cells pb.cells)) 100) := by
  have hcs : (counterLookup pp met k).isSome := by rw [hc]; rfl
  have hbcs : (counterLookup pp bmet d).isSome := by rw [hbc]; rfl
  have helig := mem_eligiblePairs pp hk hkname hcs
  have hbelig := mem_eligiblePairs pp hb hbname hbcs
  have hkden : hasDenominator pp (k, met) = true := by
    unfold hasDenominator
    rw [hc]
    simp [hd, hdne]
  have hbdenF : hasDenominator pp (d, bmet) = false := by
    unfold hasDenominator
    rw [hbc]
    simp [hbden]
  have hkmem : k ∈ ((eligiblePairs pp cur).filter (fun p => hasDenominator pp p)).map Prod.fst :=
    List.mem_map_of_mem Prod.fst (List.mem_filter.mpr ⟨helig, hkden⟩)
  have hbmem : d ∈ ((eligiblePairs pp cur).filter (fun p => !hasDenominator pp p)).map Prod.fst :=
    List.mem_map_of_mem Prod.fst (List.mem_filter.mpr ⟨hbelig, by simp [hbdenF]⟩)
  have hndk := nodup_orderedMetricKeys pp (m := cur) hnd
  rw [orderedMetricKeys_split] at hndk
  obtain ⟨hndNon, hndDen, hdisj⟩ := List.nodup_append.mp hndk
  obtain ⟨d₁, d₂, hdsplit, hkd₁, hkd₂⟩ := split_at_mem_nodup hndDen hkmem
  have horder : orderedMetricKeys pp cur
      = (((eligiblePairs pp cur).filter (fun p => !hasDenominator pp p)).map Prod.fst ++ d₁)
        ++ k :: d₂ := by
    rw [orderedMetricKeys_split, hdsplit, List.append_assoc]
  have hknon : k ∉ ((eligiblePairs pp cur).filter (fun p => !hasDenominator pp p)).map Prod.fst :=
    fun hmm => hdisj hmm hkmem
  have hkl₁ : k ∉ ((eligiblePairs pp cur).filter (fun p => !hasDenominator pp p)).map Prod.fst
      ++ d₁ := by
    intro hmm
    rcases List.mem_append.mp hmm with hmm | hmm
    · exact hknon hmm
    · exact hkd₁ hmm
  have hddenK : d ∉ ((eligiblePairs pp cur).filter (fun p => hasDenominator pp p)).map Prod.fst :=
    hdisj hbmem
  have hdd₁ : d ∉ d₁ := fun hmm => hddenK (hdsplit ▸ List.mem_append_left _ hmm)
  obtain ⟨met₀, hm₀, hc₀, hs₀⟩ := preState_getMetric pp query prevM cur hk hkts
  obtain ⟨bmet₀, hbm₀, hbc₀, hbs₀⟩ := preState_getMetric pp query prevM cur hb hdts
  have hck' : counterLookup pp met₀ k = some c := by
    rw [counterLookup_congr pp k (isArray_eq_of_shape hs₀), hc]
  have hcb' : counterLookup pp bmet₀ d = some bc := by
    rw [counterLookup_congr pp d (isArray_eq_of_shape hbs₀), hbc]
  obtain ⟨n₁, n₂, hnsplit, hdn₁, hdn₂⟩ := split_at_mem_nodup hndNon hbmem
  have hbase_nonK :
      (pass1 pp prevM (timestampDelta prevM (setUnitLabels pp query cur))
        (((eligiblePairs pp cur).filter (fun p => !hasDenominator pp p)).map Prod.fst)).getMetric d
      = some { bmet₀ with cells := deltaCells bmet₀.cells pb.cells } := by
    rw [hnsplit, pass1_turn _ _ _ hdn₂]
    have hSb : (pass1 pp prevM (timestampDelta prevM (setUnitLabels pp query cur)) n₁).getMetric d
        = some bmet₀ := by
      rw [getMetric_pass1_notMem pp prevM hdn₁ _]
      exact hbm₀
    rw [processOne_delta pp prevM _ d hSb hcb' hbct hpb]
    unfold deltaStep
    rw [getMetric_updateMetric_self, hSb]
    rfl
  have hbaseSk :
      (pass1 pp prevM (timestampDelta prevM (setUnitLabels pp query cur))
        (((eligiblePairs pp cur).filter (fun p => !hasDenominator pp p)).map Prod.fst ++ d₁)).getMetric d
      = some { bmet₀ with cells := deltaCells bmet₀.cells pb.cells } := by
    rw [pass1_append, getMetric_pass1_notMem pp prevM hdd₁ _]
    exact hbase_nonK
  have hSk :
      (pass1 pp prevM (timestampDelta prevM (setUnitLabels pp query cur))
        (((eligiblePairs pp cur).filter (fun p => !hasDenominator pp p)).map Prod.fst ++ d₁)).getMetric k
      = some met₀ := by
    rw [getMetric_pass1_notMem pp prevM hkl₁ _]
    exact hm₀
  have hbst :
      (deltaStep pk (pass1 pp prevM (timestampDelta prevM (setUnitLabels pp query cur))
        (((eligiblePairs pp cur).filter (fun p => !hasDenominator pp p)).map Prod.fst ++ d₁)) k).getMetric d
      = some { bmet₀ with cells := deltaCells bmet₀.cells pb.cells } := by
    unfold deltaStep
    rw [getMetric_updateMetric_ne _ _ hdk]
    exact hbaseSk
  have hdrw : (c.denominator : String) = d := hd
  have hnamem : met₀.name = met.name := name_eq_of_shape hs₀
  rcases hct with hctA | hctP
  · refine ⟨{ met₀ with cells := avgPctCells (pp.latencyIoReqd : ℚ) met₀.name (deltaCells met₀.cells pk.cells) (deltaCells bmet₀.cells pb.cells) }, ?_, ?_, ?_⟩
    · unfold pollDataPass1State
      rw [horder, pass1_turn _ _ _ hkd₂,
        processOne_avg pp prevM _ k hSk hck' hctA hpk (by rw [hdrw]; exact hbst)]
      unfold divideStep deltaStep
      rw [getMetric_updateMetric_self, getMetric_updateMetric_self, hSk]
      unfold avgPctCells
      rfl
    · show SMetric.shape { met₀ with cells := avgPctCells (pp.latencyIoReqd : ℚ) met₀.name (deltaCells met₀.cells pk.cells) (deltaCells bmet₀.cells pb.cells) } = met.shape
      rw [shape_update_cells]
      exact hs₀
    · show SMetric.cells { met₀ with cells := avgPctCells (pp.latencyIoReqd : ℚ) met₀.name (deltaCells met₀.cells pk.cells) (deltaCells bmet₀.cells pb.cells) } = _
      rw [cells_update_cells, hctA, hnamem, hc₀, hbc₀, if_pos (by decide : ("average" : String) = "average")]
  · refine ⟨{ met₀ with cells := multiplyCells (avgPctCells (pp.latencyIoReqd : ℚ) met₀.name (deltaCells met₀.cells pk.cells) (deltaCells bmet₀.cells pb.cells)) 100 }, ?_, ?_, ?_⟩
    · unfold pollDataPass1State
      rw [horder, pass1_turn _ _ _ hkd₂,
        processOne_pct pp prevM _ k hSk hck' hctP hpk (by rw [hdrw]; exact hbst)]
      unfold scaleStep divideStep deltaStep
      rw [getMetric_updateMetric_self, getMetric_updateMetric_self,
        getMetric_updateMetric_self, hSk]
      simp only [Option.map_some']
      unfold avgPctCells
      congr 1
    · show SMetric.shape { met₀ with cells := multiplyCells (avgPctCells (pp.latencyIoReqd : ℚ) met₀.name (deltaCells met₀.cells pk.cells) (deltaCells bmet₀.cells pb.cells)) 100 } = met.shape
      rw [shape_update_cells]
      exact hs₀
    · show SMetric.cells { met₀ with cells := multiplyCells (avgPctCells (pp.latencyIoReqd : ℚ) met₀.name (deltaCells met₀.cells pk.cells) (deltaCells bmet₀.cells pb.cells)) 100 } = _
      rw [cells_update_cells, hctP, hnamem, hc₀, hbc₀, if_neg (by decide : ¬ ("percent" : String) = "average")]

/-! ## Claim theorems -/

/-- C5: on the first successful data poll of a RestPerf collector (previous-sample
cache empty), PollData stores the current raw matrix as the previous sample,
clears the cache-empty flag and emits nothing downstream (no matrix and no
error); no delta/rate/average/percent computation happens in that cycle — the
new cache is the raw sample verbatim. -/
theorem pollData_first_poll_emits_nothing (pp : PerfProp) (query : String)
    (prevM cur : SMatrix)
    (hts : (cur.getMetric "timestamp").isSome)
    (hempty : pp.isCacheEmpty = true) :
    pollData pp query prevM cur = .ok (none, cur, false) := by
  unfold pollData
  rw [hempty]
  simp [Option.isNone_iff_eq_none]
  intro hcontra
  rw [hcontra] at hts
  cases hts

/-- Witness for C5 on the concrete fixtures. -/
theorem pollData_first_poll_emits_nothing_witness :
    pollData { ppFix with isCacheEmpty := true } "query" prevFix curFix
      = .ok (none, curFix, false) :=
  pollData_first_poll_emits_nothing _ _ _ _ (by decide) rfl

/-- C9: after every successful non-first PollData, the retained previous-sample
matrix is the raw fetched sample, cloned before any delta/divide/scale
processing touched it — the processing that builds the emitted matrix leaves
the cached sample's values unchanged. -/
theorem pollData_cache_is_raw_sample (pp : PerfProp) (query : String)
    (prevM cur : SMatrix)
    (hts : (cur.getMetric "timestamp").isSome)
    (hfull : pp.isCacheEmpty = false) :
    pollData pp query prevM cur
      = .ok (some (pollDataResult pp query prevM cur), cur, false) := by
  unfold pollData
  rw [hfull]
  simp [Option.isNone_iff_eq_none]
  intro hcontra
  rw [hcontra] at hts
  cases hts

/-- Witness for C9 on the concrete fixtures: the cache equals the raw current
sample even though the emitted matrix is post-processed. -/
theorem pollData_cache_is_raw_sample_witness :
    pollData ppFix "query" prevFix curFix
      = .ok (some (pollDataResult ppFix "query" prevFix curFix), curFix, false)
    ∧ (pollDataResult ppFix "query" prevFix curFix).getMetric "total_ops"
        ≠ curFix.getMetric "total_ops" :=
  ⟨pollData_cache_is_raw_sample ppFix "query" prevFix curFix (by decide) rfl, by decide⟩

/-- C6: a metric whose counter type is `raw` receives no post-processing: no
delta, division, threshold or scaling touches its cells, so the emitted matrix
holds the fetched cells verbatim, while the raw sample itself is cached. -/
theorem pollData_raw_untouched (pp : PerfProp) (query : String)
    (prevM cur : SMatrix) (k : String) (met : SMetric) (c : Counter)
    (hnd : (cur.metrics.map Prod.fst).Nodup)
    (htsp : (cur.getMetric "timestamp").isSome)
    (hfull : pp.isCacheEmpty = false)
    (hk : cur.getMetric k = some met)
    (hkname : met.name ≠ "timestamp")
    (hkts : k ≠ "timestamp")
    (hc : counterLookup pp met k = some c)
    (hct : c.counterType = "raw") :
    pollData pp query prevM cur
      = .ok (some (pollDataResult pp query prevM cur), cur, false)
    ∧ ((pollDataResult pp query prevM cur).getMetric k).map SMetric.cells
        = some met.cells := by
  constructor
  · unfold pollData
    rw [hfull]
    simp [Option.isNone_iff_eq_none]
    intro hcontra
    rw [hcontra] at htsp
    cases htsp
  · exact pollDataResult_cells_raw pp query prevM cur hnd hk hkname hkts hc hct

/-- Witness for C6 on the concrete fixtures: the raw `uptime` counter is emitted
verbatim. -/
theorem pollData_raw_untouched_witness :
    pollData ppFix "query" prevFix curFix
      = .ok (some (pollDataResult ppFix "query" prevFix curFix), curFix, false)
    ∧ ((pollDataResult ppFix "query" prevFix curFix).getMetric "uptime").map SMetric.cells
        = some ({ name := "uptime", cells := [some (999 : ℚ)] } : SMetric).cells :=
  pollData_raw_untouched ppFix "query" prevFix curFix "uptime"
    { name := "uptime", cells := [some (999 : ℚ)] }
    { name := "uptime", counterType := "raw" }
    (by decide) (by decide) rfl (by decide) (by decide) (by decide) (by decide) (by decide)

/-- Combined corollary: the emitted cells of an `average` or `percent` counter. -/
theorem pollDataResult_cells_avgpct (pp : PerfProp) (query : String)
    (prevM cur : SMatrix) (k d : String) (met pk bmet pb : SMetric) (c bc : Counter)
    (hnd : (cur.metrics.map Prod.fst).Nodup)
    (hk : cur.getMetric k = some met)
    (hkname : met.name ≠ "timestamp")
    (hkts : k ≠ "timestamp")
    (hc : counterLookup pp met k = some c)
    (hct : c.counterType = "average" ∨ c.counterType = "percent")
    (hpk : prevM.getMetric k = some pk)
    (hd : c.denominator = d)
    (hdne : d ≠ "")
    (hdk : d ≠ k)
    (hdts : d ≠ "timestamp")
    (hb : cur.getMetric d = some bmet)
    (hbname : bmet.name ≠ "timestamp")
    (hbc : counterLookup pp bmet d = some bc)
    (hbct : bc.counterType = "delta" ∨ bc.counterType = "rate")
    (hbden : bc.denominator = "")
    (hpb : prevM.getMetric d = some pb) :
    ((pollDataResult pp query prevM cur).getMetric k).map SMetric.cells
      = some (if c.counterType = "average" then
          avgPctCells (pp.latencyIoReqd : ℚ) met.name (deltaCells met.cells pk.cells)
            (deltaCells bmet.cells pb.cells)
        else
          multiplyCells (avgPctCells (pp.latencyIoReqd : ℚ) met.name
            (deltaCells met.cells pk.cells) (deltaCells bmet.cells pb.cells)) 100) := by
  obtain ⟨met₂, hm₂, hs₂, hc₂⟩ :=
    pass1State_cells_avgpct pp query prevM cur hnd hk hkname hkts hc hct hpk hd hdne hdk
      hdts hb hbname hbc hbct hbden hpb
  have hmem := mem_orderedKeys pp hk hkname (by rw [hc]; rfl)
  have hcm₂ : counterLookup pp met₂ k = some c := by
    rw [counterLookup_congr pp k (isArray_eq_of_shape hs₂), hc]
  have hnonrate : c.counterType ≠ "rate" := by
    rcases hct with h | h <;> rw [h] <;> decide
  rw [pollDataResult_getMetric_nonrate pp query prevM cur hnd hmem hm₂ hcm₂ hnonrate]
  simp only [Option.map_some']
  rw [hc₂]

/-- C3: for every metric with counter type `average` or `percent`, PollData
divides its delta by the denominator's delta using `divide_with_threshold`
exactly when the display name ends in `latency`, with threshold
`latency_io_reqd` — whose value is the template parameter when it parses as an
integer and the default 10 otherwise; every other average/percent metric gets
the plain division. -/
theorem pollData_latency_threshold_divide (pp : PerfProp) (query paramValue : String)
    (prevM cur : SMatrix) (k d : String) (met pk bmet pb : SMetric) (c bc : Counter)
    (hlat : pp.latencyIoReqd = initLatencyIoReqd paramValue)
    (hnd : (cur.metrics.map Prod.fst).Nodup)
    (hk : cur.getMetric k = some met)
    (hkname : met.name ≠ "timestamp")
    (hkts : k ≠ "timestamp")
    (hc : counterLookup pp met k = some c)
    (hct : c.counterType = "average" ∨ c.counterType = "percent")
    (hpk : prevM.getMetric k = some pk)
    (hd : c.denominator = d)
    (hdne : d ≠ "")
    (hdk : d ≠ k)
    (hdts : d ≠ "timestamp")
    (hb : cur.getMetric d = some bmet)
    (hbname : bmet.name ≠ "timestamp")
    (hbc : counterLookup pp bmet d = some bc)
    (hbct : bc.counterType = "delta" ∨ bc.counterType = "rate")
    (hbden : bc.denominator = "")
    (hpb : prevM.getMetric d = some pb) :
    (((pollDataResult pp query prevM cur).getMetric k).map SMetric.cells
      = some (if c.counterType = "average" then
          (if met.name.endsWith "latency" then
            divideWithThresholdCells (deltaCells met.cells pk.cells)
              (deltaCells bmet.cells pb.cells) ((initLatencyIoReqd paramValue : Int) : ℚ)
          else
            divideCells (deltaCells met.cells pk.cells) (deltaCells bmet.cells pb.cells))
        else
          multiplyCells
            (if met.name.endsWith "latency" then
              divideWithThresholdCells (deltaCells met.cells pk.cells)
                (deltaCells bmet.cells pb.cells) ((initLatencyIoReqd paramValue : Int) : ℚ)
            else
              divideCells (deltaCells met.cells pk.cells) (deltaCells bmet.cells pb.cells))
            100))
    ∧ initLatencyIoReqd "" = latencyIoReqd
    ∧ latencyIoReqd = 10
    ∧ (∀ s n, s ≠ "" → s.toInt? = some n → initLatencyIoReqd s = n) := by
  refine ⟨?_, rfl, rfl, ?_⟩
  · have := pollDataResult_cells_avgpct pp query prevM cur k d met pk bmet pb c bc hnd hk
      hkname hkts hc hct hpk hd hdne hdk hdts hb hbname hbc hbct hbden hpb
    rw [hlat] at this
    rw [this]
    unfold avgPctCells
    rfl
  · intro s n hs hn
    unfold initLatencyIoReqd loadParamInt
    rw [if_neg hs, hn]

/-- Witness for C3 on the concrete fixtures: `read_latency` (average, ends in
`latency`) is divided with the threshold; 4000/200 = 20 with denominator 200
above the default threshold 10. -/
theorem pollData_latency_threshold_divide_witness :
    ((pollDataResult ppFix "query" prevFix curFix).getMetric "read_latency").map SMetric.cells
      = some (if ("average" : String) = "average" then
          (if ("read_latency" : String).endsWith "latency" then
            divideWithThresholdCells (deltaCells [some (5000 : ℚ)] [some (1000 : ℚ)])
              (deltaCells [some (300 : ℚ)] [some (100 : ℚ)]) ((initLatencyIoReqd "" : Int) : ℚ)
          else
            divideCells (deltaCells [some (5000 : ℚ)] [some (1000 : ℚ)])
              (deltaCells [some (300 : ℚ)] [some (100 : ℚ)]))
        else
          multiplyCells
            (if ("read_latency" : String).endsWith "latency" then
              divideWithThresholdCells (deltaCells [some (5000 : ℚ)] [some (1000 : ℚ)])
                (deltaCells [some (300 : ℚ)] [some (100 : ℚ)]) ((initLatencyIoReqd "" : Int) : ℚ)
            else
              divideCells (deltaCells [some (5000 : ℚ)] [some (1000 : ℚ)])
                (deltaCells [some (300 : ℚ)] [some (100 : ℚ)]))
            100) :=
  (pollData_latency_threshold_divide ppFix "query" "" prevFix curFix
    "read_latency" "total_ops"
    { name := "read_latency", cells := [some (5000 : ℚ)] }
    { name := "read_latency", cells := [some (1000 : ℚ)] }
    { name := "total_ops", cells := [some (300 : ℚ)] }
    { name := "total_ops", cells := [some (100 : ℚ)] }
    { name := "read_latency", counterType := "average", denominator := "total_ops", unit := "us" }
    { name := "total_ops", counterType := "delta" }
    rfl (by decide) (by decide) (by decide) (by decide) (by decide) (Or.inl (by decide))
    (by decide) (by decide) (by decide) (by decide) (by decide) (by decide) (by decide)
    (by decide) (Or.inl (by decide)) (by decide) (by decide)).1

theorem pairwise_of_forall_rel {α : Type} {R : α → α → Prop} :
    ∀ {l : List α}, (∀ a ∈ l, ∀ b ∈ l, R a b) → l.Pairwise R := by
  intro l
  induction l with
  | nil => intro _; exact List.Pairwise.nil
  | cons x xs ih =>
      intro h
      exact List.Pairwise.cons
        (fun b hb => h x (List.mem_cons_self x xs) b (List.mem_cons_of_mem x hb))
        (ih fun a ha b hb => h a (List.mem_cons_of_mem x ha) b (List.mem_cons_of_mem x hb))

/-- C2: in the post-processing of a non-first sample, (i) the processing order
puts every metric without a denominator before every metric with one, (ii) the
timestamp delta is computed before any metric is processed — the state entering
the first pass already holds the deltified timestamp — and (iii) a `rate`
counter is only deltified in the first pass and is computed in the second pass
as its delta divided by the timestamp delta. -/
theorem pollData_processing_order (pp : PerfProp) (query : String)
    (prevM cur : SMatrix) (k : String) (met pk tsm ptsm : SMetric) (c : Counter)
    (hnd : (cur.metrics.map Prod.fst).Nodup)
    (hk : cur.getMetric k = some met)
    (hkname : met.name ≠ "timestamp")
    (hkts : k ≠ "timestamp")
    (hc : counterLookup pp met k = some c)
    (hct : c.counterType = "rate")
    (hpk : prevM.getMetric k = some pk)
    (hts : cur.getMetric "timestamp" = some tsm)
    (htsn : tsm.name = "timestamp")
    (hpts : prevM.getMetric "timestamp" = some ptsm) :
    List.Pairwise (fun a b => hasDenominator pp a = true → hasDenominator pp b = true)
        (orderedPairs pp cur)
    ∧ (timestampDelta prevM (setUnitLabels pp query cur)).getMetric "timestamp"
        = some { tsm with cells := deltaCells tsm.cells ptsm.cells }
    ∧ ((pollDataPass1State pp query prevM cur).getMetric k).map SMetric.cells
        = some (deltaCells met.cells pk.cells)
    ∧ ((pollDataResult pp query prevM cur).getMetric k).map SMetric.cells
        = some (divideCells (deltaCells met.cells pk.cells)
            (deltaCells tsm.cells ptsm.cells)) := by
  refine ⟨?_, preState_ts pp query prevM cur hts htsn hpts, ?_,
    pollDataResult_cells_rate pp query prevM cur hnd hk hkname hkts hc hct hpk hts htsn hpts⟩
  · unfold orderedPairs
    rw [List.pairwise_append]
    refine ⟨?_, ?_, ?_⟩
    · refine pairwise_of_forall_rel ?_
      intro a ha b _ hda
      have := (List.mem_filter.mp ha).2
      simp only [Bool.not_eq_true'] at this
      rw [this] at hda
      cases hda
    · refine pairwise_of_forall_rel ?_
      intro a _ b hb _
      exact (List.mem_filter.mp hb).2
    · intro a _ b hb _
      exact (List.mem_filter.mp hb).2
  · obtain ⟨met₁, hm₁, hc₁, _⟩ := pass1State_cells_deltaOrRate pp query prevM cur hnd hk
      hkname hkts hc (Or.inr hct) hpk
    rw [hm₁]
    simp [hc₁]

/-- Witness for C2 on the concrete fixtures (`throughput` is the rate counter;
its delta 800 is divided by the timestamp delta 10). -/
theorem pollData_processing_order_witness :
    List.Pairwise (fun a b => hasDenominator ppFix a = true → hasDenominator ppFix b = true)
        (orderedPairs ppFix curFix)
    ∧ (timestampDelta prevFix (setUnitLabels ppFix "query" curFix)).getMetric "timestamp"
        = some { ({ name := "timestamp", property := "raw", exportable := false,
                    cells := [some (110 : ℚ)] } : SMetric) with
                 cells := deltaCells [some (110 : ℚ)] [some (100 : ℚ)] }
    ∧ ((pollDataPass1State ppFix "query" prevFix curFix).getMetric "throughput").map SMetric.cells
        = some (deltaCells [some (1000 : ℚ)] [some (200 : ℚ)])
    ∧ ((pollDataResult ppFix "query" prevFix curFix).getMetric "throughput").map SMetric.cells
        = some (divideCells (deltaCells [some (1000 : ℚ)] [some (200 : ℚ)])
            (deltaCells [some (110 : ℚ)] [some (100 : ℚ)])) :=
  pollData_processing_order ppFix "query" prevFix curFix "throughput"
    { name := "throughput", cells := [some (1000 : ℚ)] }
    { name := "throughput", cells := [some (200 : ℚ)] }
    { name := "timestamp", property := "raw", exportable := false, cells := [some (110 : ℚ)] }
    { name := "timestamp", property := "raw", exportable := false, cells := [some (100 : ℚ)] }
    { name := "throughput", counterType := "rate" }
    (by decide) (by decide) (by decide) (by decide) (by decide) (by decide) (by decide)
    (by decide) (by decide) (by decide)

/-- C4: a `percent` counter's emitted value is exactly the value the same metric
would receive as an `average` counter, multiplied by 100, for any matched pair
of current and previous samples. -/
theorem pollData_percent_is_average_times_100 (pp : PerfProp) (query : String)
    (prevM cur : SMatrix) (k d : String) (met pk bmet pb : SMetric) (c bc : Counter)
    (hnd : (cur.metrics.map Prod.fst).Nodup)
    (hk : cur.getMetric k = some met)
    (hkname : met.name ≠ "timestamp")
    (hkts : k ≠ "timestamp")
    (hma : met.isArray = false)
    (hc : counterLookup pp met k = some c)
    (hctP : c.counterType = "percent")
    (hpk : prevM.getMetric k = some pk)
    (hd : c.denominator = d)
    (hdne : d ≠ "")
    (hdk : d ≠ k)
    (hdts : d ≠ "timestamp")
    (hb : cur.getMetric d = some bmet)
    (hbname : bmet.name ≠ "timestamp")
    (hbma : bmet.isArray = false)
    (hbc : counterLookup pp bmet d = some bc)
    (hbct : bc.counterType = "delta" ∨ bc.counterType = "rate")
    (hbden : bc.denominator = "")
    (hpb : prevM.getMetric d = some pb) :
    ∃ mP mA,
      (pollDataResult pp query prevM cur).getMetric k = some mP
      ∧ (pollDataResult (replaceCounterType pp k "average") query prevM cur).getMetric k
          = some mA
      ∧ mP.cells = multiplyCells mA.cells 100 := by
  have hc0 : lookupKey k pp.counterInfo = some c := by
    unfold counterLookup at hc
    rw [hma] at hc
    simpa using hc
  have hb0 : lookupKey d pp.counterInfo = some bc := by
    unfold counterLookup at hbc
    rw [hbma] at hbc
    simpa using hbc
  have hc2 : counterLookup (replaceCounterType pp k "average") met k
      = some { c with counterType := "average" } := by
    unfold counterLookup replaceCounterType
    rw [hma]
    simp only [Bool.false_eq_true, if_false]
    rw [lookupKey_mapVals, hc0]
    simp
  have hbc2 : counterLookup (replaceCounterType pp k "average") bmet d = some bc := by
    unfold counterLookup replaceCounterType
    rw [hbma]
    simp only [Bool.false_eq_true, if_false]
    rw [lookupKey_mapVals, hb0]
    simp [hdk]
  have run1 := pollDataResult_cells_avgpct pp query prevM cur k d met pk bmet pb c bc hnd hk
    hkname hkts hc (Or.inr hctP) hpk hd hdne hdk hdts hb hbname hbc hbct hbden hpb
  have run2 := pollDataResult_cells_avgpct (replaceCounterType pp k "average") query prevM cur
    k d met pk bmet pb { c with counterType := "average" } bc hnd hk hkname hkts hc2
    (Or.inl rfl) hpk hd hdne hdk hdts hb hbname hbc2 hbct hbden hpb
  rw [hctP] at run1
  rw [if_neg (by decide : ¬ ("percent" : String) = "average")] at run1
  rw [if_pos (by decide : ("average" : String) = "average")] at run2
  obtain ⟨mP, hmP, hcP⟩ := Option.map_eq_some'.mp run1
  obtain ⟨mA, hmA, hcA⟩ := Option.map_eq_some'.mp run2
  refine ⟨mP, mA, hmP, hmA, ?_⟩
  rw [hcP, hcA]
  rfl

/-- Witness for C4 on the concrete fixtures: `busy_pct` yields 25 as percent and
would yield 1/4 as average. -/
theorem pollData_percent_is_average_times_100_witness :
    ∃ mP mA,
      (pollDataResult ppFix "query" prevFix curFix).getMetric "busy_pct" = some mP
      ∧ (pollDataResult (replaceCounterType ppFix "busy_pct" "average") "query" prevFix
          curFix).getMetric "busy_pct" = some mA
      ∧ mP.cells = multiplyCells mA.cells 100 :=
  pollData_percent_is_average_times_100 ppFix "query" prevFix curFix "busy_pct" "total_ops"
    { name := "busy_pct", cells := [some (80 : ℚ)] }
    { name := "busy_pct", cells := [some (30 : ℚ)] }
    { name := "total_ops", cells := [some (300 : ℚ)] }
    { name := "total_ops", cells := [some (100 : ℚ)] }
    { name := "busy_pct", counterType := "percent", denominator := "total_ops" }
    { name := "total_ops", counterType := "delta" }
    (by decide) (by decide) (by decide) (by decide) (by decide) (by decide) (by decide)
    (by decide) (by decide) (by decide) (by decide) (by decide) (by decide) (by decide)
    (by decide) (by decide) (Or.inl (by decide)) (by decide) (by decide)

/-- C1: `upgradeCollector` is a pure function of the requested class and the
capability record: without ZAPIs, `Zapi` becomes `Rest` and `ZapiPerf` becomes
`RestPerf` (the latter when the cluster is not disaggregated, where the
disaggregation rule takes precedence); on disaggregated clusters `RestPerf` and
`ZapiPerf` become `KeyPerf`, and with SAN optimization `Zapi` becomes `Rest`;
a requested `KeyPerf` is never downgraded; any other class is returned
unchanged.  The final conjunct reproduces every row of seed scenario S1. -/
theorem upgradeCollector_rules (r : Remote) (cname : String) :
    (r.zapisExist = false → upgradeCollector "Zapi" r = "Rest")
    ∧ (r.zapisExist = false → r.isDisaggregated = false →
        upgradeCollector "ZapiPerf" r = "RestPerf")
    ∧ (r.isDisaggregated = true →
        upgradeCollector "RestPerf" r = "KeyPerf" ∧ upgradeCollector "ZapiPerf" r = "KeyPerf")
    ∧ (r.isDisaggregated = true → r.isSanOptimized = true →
        upgradeCollector "Zapi" r = "Rest")
    ∧ upgradeCollector "KeyPerf" r = "KeyPerf"
    ∧ (cname ≠ "Zapi" → cname ≠ "ZapiPerf" → cname ≠ "RestPerf" →
        upgradeCollector cname r = cname)
    ∧ (upgradeCollector "Zapi" { version := "9.11.1", zapisExist := true } = "Zapi"
      ∧ upgradeCollector "ZapiPerf" { version := "9.11.1", zapisExist := true } = "ZapiPerf"
      ∧ upgradeCollector "Rest" { version := "9.11.1", zapisExist := true } = "Rest"
      ∧ upgradeCollector "KeyPerf" { version := "9.11.1", zapisExist := true } = "KeyPerf"
      ∧ upgradeCollector "Zapi" { version := "9.17.1" } = "Rest"
      ∧ upgradeCollector "ZapiPerf" { version := "9.17.1" } = "RestPerf"
      ∧ upgradeCollector "KeyPerf" { version := "9.17.1" } = "KeyPerf"
      ∧ upgradeCollector "Zapi" { version := "9.17.1", isDisaggregated := true } = "Rest"
      ∧ upgradeCollector "Rest" { version := "9.17.1", isDisaggregated := true } = "Rest"
      ∧ upgradeCollector "ZapiPerf" { version := "9.17.1", isDisaggregated := true } = "KeyPerf"
      ∧ upgradeCollector "RestPerf" { version := "9.17.1", isDisaggregated := true } = "KeyPerf"
      ∧ upgradeCollector "Zapi"
          { version := "9.17.1", zapisExist := true, isDisaggregated := true } = "Zapi"
      ∧ upgradeCollector "ZapiPerf"
          { version := "9.17.1", zapisExist := true, isDisaggregated := true } = "KeyPerf"
      ∧ upgradeCollector "RestPerf"
          { version := "9.17.1", zapisExist := true, isDisaggregated := true } = "KeyPerf"
      ∧ upgradeCollector "Zapi"
          { version := "9.16.1", isDisaggregated := true, isSanOptimized := true } = "Rest"
      ∧ upgradeCollector "RestPerf"
          { version := "9.16.1", isDisaggregated := true, isSanOptimized := true } = "KeyPerf") := by
  obtain ⟨v, z, dis, san⟩ := r
  refine ⟨?_, ?_, ?_, ?_, ?_, ?_, ?_⟩
  · intro hz
    subst hz
    cases dis <;> cases san <;> rfl
  · intro hz hdis
    subst hz
    subst hdis
    rfl
  · intro hdis
    subst hdis
    exact ⟨by cases z <;> cases san <;> rfl, by cases z <;> cases san <;> rfl⟩
  · intro hdis hsan
    subst hdis
    subst hsan
    cases z <;> rfl
  · cases z <;> cases dis <;> cases san <;> rfl
  · intro h1 h2 h3
    unfold upgradeCollector
    cases z <;> cases dis <;> cases san <;> simp [h1, h2, h3]
  · exact ⟨rfl, rfl, rfl, rfl, rfl, rfl, rfl, rfl, rfl, rfl, rfl, rfl, rfl, rfl, rfl, rfl⟩

/-- Witness for C1 at a concrete record and class. -/
theorem upgradeCollector_rules_witness :
    upgradeCollector "Zapi" (Remote.mk "9.16.1" false true true) = "Rest"
    ∧ upgradeCollector "StorageGrid" (Remote.mk "9.16.1" false true true) = "StorageGrid" :=
  ⟨(upgradeCollector_rules (Remote.mk "9.16.1" false true true) "StorageGrid").1 rfl,
   (upgradeCollector_rules (Remote.mk "9.16.1" false true true) "StorageGrid").2.2.2.2.2.1
     (by decide) (by decide) (by decide)⟩

/-- C8 counterexample: with an ONTAP collector requested and a probe that
returns both a non-empty record and an error, the poller does not continue
with an empty capability record — it keeps the returned record (matching
`TestNegotiateONTAPAPI`, which expects `{Version: 9.11.1}` in this case). -/
theorem negotiateONTAPAPI_error_empty_counterexample :
    negotiateONTAPAPI ["Zapi"]
        ({ version := "9.11.1" }, some "failed to gather cluster info")
      ≠ emptyRemote := by
  decide

/-- C8 amended: the probe runs only when an ONTAP collector is requested, its
failure is non-fatal, and the poller keeps whatever capability record the probe
returned — empty only when the probe returned an empty record; without an ONTAP
collector the probe outcome is ignored and the record stays empty. -/
theorem negotiateONTAPAPI_amended (collectors : List String) (r : Remote)
    (e : Option String) :
    (collectors.any (fun c => ontapCollectorNames.contains c) = false →
      negotiateONTAPAPI collectors (r, e) = emptyRemote)
    ∧ (collectors.any (fun c => ontapCollectorNames.contains c) = true →
      negotiateONTAPAPI collectors (r, e) = r)
    ∧ (∀ probe₁ probe₂ : Remote × Option String,
        collectors.any (fun c => ontapCollectorNames.contains c) = false →
        negotiateONTAPAPI collectors probe₁ = negotiateONTAPAPI collectors probe₂) := by
  unfold negotiateONTAPAPI
  refine ⟨?_, ?_, ?_⟩
  · intro h
    rw [h]
    rfl
  · intro h
    rw [h]
    rfl
  · intro p₁ p₂ h
    rw [h]
    rfl

/-- Witness for C8's amended statement on the test's inputs. -/
theorem negotiateONTAPAPI_amended_witness :
    negotiateONTAPAPI ["Zapi"]
        ({ version := "9.11.1" }, some "failed to gather cluster info")
      = { version := "9.11.1" }
    ∧ negotiateONTAPAPI ["StorageGrid"] ({ version := "9.11.1" }, none) = emptyRemote :=
  ⟨(negotiateONTAPAPI_amended ["Zapi"] { version := "9.11.1" }
      (some "failed to gather cluster info")).2.1 (by decide),
   (negotiateONTAPAPI_amended ["StorageGrid"] { version := "9.11.1" } none).1 (by decide)⟩

/-! ## Collector-selection lemmas for the uniquify pass -/

theorem head?_eq_some_iff_cons {α : Type} {l : List α} {a : α} :
    l.head? = some a ↔ ∃ t, l = a :: t := by
  cases l <;> simp

theorem mem_chosenCollectors_iff {input : List (String × List String)}
    {oc : ObjectCollector} :
    oc ∈ chosenCollectors input ↔
      ∃ p ∈ input, ∃ rest, p.2 = oc.className :: rest ∧ oc.object = p.1 := by
  unfold chosenCollectors
  rw [List.mem_filterMap]
  constructor
  · rintro ⟨p, hp, hf⟩
    rcases Option.map_eq_some'.mp hf with ⟨c, hc, hoc⟩
    rcases head?_eq_some_iff_cons.mp hc with ⟨t, ht⟩
    exact ⟨p, hp, t, by rw [ht, ← hoc], by rw [← hoc]⟩
  · rintro ⟨p, hp, rest, hhd, hob⟩
    refine ⟨p, hp, ?_⟩
    rw [hhd]
    simp only [List.head?_cons, Option.map_some']
    cases oc
    simp_all

theorem chosenCollectors_eq_of_object_eq {input : List (String × List String)}
    (hnd : (input.map Prod.fst).Nodup) {oc₁ oc₂ : ObjectCollector}
    (h₁ : oc₁ ∈ chosenCollectors input) (h₂ : oc₂ ∈ chosenCollectors input)
    (hob : oc₁.object = oc₂.object) : oc₁ = oc₂ := by
  rcases mem_chosenCollectors_iff.mp h₁ with ⟨p₁, hp₁, r₁, hh₁, ho₁⟩
  rcases mem_chosenCollectors_iff.mp h₂ with ⟨p₂, hp₂, r₂, hh₂, ho₂⟩
  have hpe : p₁ = p₂ := pairs_eq_of_nodup_keys hnd hp₁ hp₂ (by rw [← ho₁, ← ho₂, hob])
  subst hpe
  cases oc₁
  cases oc₂
  simp_all

theorem chosenCollectors_objects_sublist (input : List (String × List String)) :
    List.Sublist ((chosenCollectors input).map ObjectCollector.object)
      (input.map Prod.fst) := by
  induction input with
  | nil => simp [chosenCollectors]
  | cons p rest ih =>
      simp only [chosenCollectors] at ih ⊢
      cases hf : p.2.head? with
      | none =>
          simp only [List.filterMap_cons, hf, Option.map_none', List.map_cons]
          exact List.Sublist.cons _ ih
      | some c =>
          simp only [List.filterMap_cons, hf, Option.map_some', List.map_cons]
          exact List.Sublist.cons₂ _ ih

theorem nodup_pairs_uniquify (input : List (String × List String))
    (hnd : (input.map Prod.fst).Nodup) :
    ((uniquifyObjectCollectors input).map
      (fun oc => (oc.className, oc.object))).Nodup := by
  have hobj : ((chosenCollectors input).map ObjectCollector.object).Nodup :=
    List.Nodup.sublist (chosenCollectors_objects_sublist input) hnd
  have h1 : ((chosenCollectors input).map
      (fun oc => (oc.className, oc.object))).Nodup := by
    apply List.Nodup.of_map Prod.snd
    rw [List.map_map]
    exact hobj
  have h2 : List.Sublist (uniquifyObjectCollectors input) (chosenCollectors input) := by
    unfold uniquifyObjectCollectors
    exact List.filter_sublist _
  exact List.Nodup.sublist (List.Sublist.map _ h2) h1

/-- C7: `uniquifyObjectCollectors` always picks the first listed class for each
object, then drops every object whose chosen class is shadowed by the class
chosen for a different object; unshadowed objects survive with their first
class; with no overlaps at all nothing is dropped; the result never carries two
entries for the same (class, object) pair.  The final conjuncts reproduce the
qtree/quota shadowing row and a multi-`KeyPerf` row of
`Test_uniquifyObjectCollectors`. -/
theorem uniquifyObjectCollectors_spec (input : List (String × List String))
    (hnd : (input.map Prod.fst).Nodup) :
    (∀ oc ∈ uniquifyObjectCollectors input,
        ∃ p ∈ input, ∃ rest, p.2 = oc.className :: rest ∧ oc.object = p.1)
    ∧ (∀ p ∈ input, ∀ q ∈ input, ∀ cp cq : String, ∀ restp restq : List String,
        p.2 = cp :: restp → q.2 = cq :: restq → q.1 ≠ p.1 →
        overlapShadows cq cp = true →
        ∀ oc ∈ uniquifyObjectCollectors input, oc.object ≠ p.1)
    ∧ (∀ p ∈ input, ∀ cp : String, ∀ restp : List String, p.2 = cp :: restp →
        (∀ q ∈ input, ∀ cq : String, ∀ restq : List String,
          q.2 = cq :: restq → q.1 ≠ p.1 → overlapShadows cq cp = false) →
        (⟨cp, p.1⟩ : ObjectCollector) ∈ uniquifyObjectCollectors input)
    ∧ ((∀ oc ∈ chosenCollectors input, ∀ oc2 ∈ chosenCollectors input,
          oc2.object ≠ oc.object → overlapShadows oc2.className oc.className = false) →
        uniquifyObjectCollectors input = chosenCollectors input)
    ∧ ((uniquifyObjectCollectors input).map (fun oc => (oc.className, oc.object))).Nodup
    ∧ uniquifyObjectCollectors [("Qtree", ["Zapi", "Rest"]), ("Quota", ["Rest"])]
        = [⟨"Zapi", "Qtree"⟩]
    ∧ uniquifyObjectCollectors
        [("Volume", ["RestPerf", "ZapiPerf"]), ("Aggregate", ["KeyPerf"]),
          ("Lun", ["KeyPerf"])]
        = [⟨"RestPerf", "Volume"⟩, ⟨"KeyPerf", "Aggregate"⟩, ⟨"KeyPerf", "Lun"⟩] := by
  refine ⟨?_, ?_, ?_, ?_, nodup_pairs_uniquify input hnd, by decide, by decide⟩
  · intro oc hoc
    have hch : oc ∈ chosenCollectors input := (List.mem_filter.mp hoc).1
    exact mem_chosenCollectors_iff.mp hch
  · intro p hp q hq cp cq restp restq hhp hhq hqp hsh oc hoc hob
    obtain ⟨hch, hpred⟩ := List.mem_filter.mp hoc
    have hpmem : (⟨cp, p.1⟩ : ObjectCollector) ∈ chosenCollectors input :=
      mem_chosenCollectors_iff.mpr ⟨p, hp, restp, hhp, rfl⟩
    have hqmem : (⟨cq, q.1⟩ : ObjectCollector) ∈ chosenCollectors input :=
      mem_chosenCollectors_iff.mpr ⟨q, hq, restq, hhq, rfl⟩
    have hoceq : oc = ⟨cp, p.1⟩ :=
      chosenCollectors_eq_of_object_eq hnd hch hpmem hob
    rw [Bool.not_eq_true', List.any_eq_false] at hpred
    have := hpred _ hqmem
    rw [hoceq] at this
    simp only [Bool.and_eq_true, decide_eq_true_eq, not_and] at this
    exact this hqp hsh
  · intro p hp cp restp hhp hnosh
    refine List.mem_filter.mpr ⟨mem_chosenCollectors_iff.mpr ⟨p, hp, restp, hhp, rfl⟩, ?_⟩
    rw [Bool.not_eq_true', List.any_eq_false]
    intro oc2 hoc2
    rcases mem_chosenCollectors_iff.mp hoc2 with ⟨q, hq, restq, hhq, hoq⟩
    by_cases hqq : q.1 = p.1
    · have : oc2.object = p.1 := by rw [hoq, hqq]
      simp [this]
    · have hsh : overlapShadows oc2.className cp = false := by
        have hq2 : q.2 = oc2.className :: restq := hhq
        exact hnosh q hq oc2.className restq hq2 hqq
      simp [hsh]
  · intro hno
    unfold uniquifyObjectCollectors
    rw [List.filter_eq_self]
    intro oc hoc
    rw [Bool.not_eq_true', List.any_eq_false]
    intro oc2 hoc2
    by_cases hob : oc2.object = oc.object
    · simp [hob]
    · simp [hno oc hoc oc2 hoc2 hob]

/-- Witness for C7 at the qtree/quota shadowing input. -/
theorem uniquifyObjectCollectors_spec_witness :
    uniquifyObjectCollectors [("Qtree", ["Zapi", "Rest"]), ("Quota", ["Rest"])]
      = [⟨"Zapi", "Qtree"⟩]
    ∧ ((uniquifyObjectCollectors [("Qtree", ["Zapi", "Rest"]), ("Quota", ["Rest"])]).map
        (fun oc => (oc.className, oc.object))).Nodup :=
  ⟨(uniquifyObjectCollectors_spec [("Qtree", ["Zapi", "Rest"]), ("Quota", ["Rest"])]
      (by decide)).2.2.2.2.2.1,
    (uniquifyObjectCollectors_spec [("Qtree", ["Zapi", "Rest"]), ("Quota", ["Rest"])]
      (by decide)).2.2.2.2.1⟩

/-! ## Timestamp-state lemmas for PollCounter (restperf.go lines 275-285) -/

theorem lookupKey_append_single_ne {β : Type} (k nm : String) (v : β)
    (l : List (String × β)) (h : nm ≠ k) :
    lookupKey k (l ++ [(nm, v)]) = lookupKey k l := by
  induction l with
  | nil => simp [lookupKey, h]
  | cons p rest ih =>
      by_cases hp : p.1 = k <;> simp [lookupKey, hp, ih]

theorem getMetric_addMetric_ne (m : SMatrix) {nm k : String} (met : SMetric)
    (h : nm ≠ k) : (m.addMetric nm met).getMetric k = m.getMetric k :=
  lookupKey_append_single_ne k nm met m.metrics h

theorem keys_addMetric (m : SMatrix) (nm : String) (met : SMetric) :
    (m.addMetric nm met).metrics.map Prod.fst = m.metrics.map Prod.fst ++ [nm] := by
  simp [SMatrix.addMetric]

theorem tsState_updateMetric_ne (m : SMatrix) (k : String) (f : SMetric → SMetric)
    (h : k ≠ "timestamp") : tsState (m.updateMetric k f) = tsState m := by
  unfold tsState
  rw [getMetric_updateMetric_ne m f (Ne.symm h), keys_updateMetric]

theorem tsState_addMetric_ne (m : SMatrix) (nm : String) (met : SMetric)
    (h : nm ≠ "timestamp") : tsState (m.addMetric nm met) = tsState m := by
  unfold tsState
  rw [getMetric_addMetric_ne m met h, keys_addMetric, List.count_append]
  simp [List.count_cons, h]

theorem tsState_ensureAndTag (m : SMatrix) (nm : String) (rm : RMetric)
    (h : nm ≠ "timestamp") : tsState (ensureAndTag m nm rm) = tsState m := by
  simp only [ensureAndTag]
  by_cases hs : (m.getMetric nm).isSome
  · rw [if_pos hs, tsState_updateMetric_ne _ _ _ h]
  · rw [if_neg hs, tsState_updateMetric_ne _ _ _ h, tsState_addMetric_ne _ _ _ h]

theorem tsState_wdlEnsure (propMetrics : List (String × RMetric))
    (hpm : ∀ p ∈ propMetrics, p.1 ≠ "timestamp") (m : SMatrix) :
    tsState (wdlEnsure propMetrics m) = tsState m := by
  unfold wdlEnsure
  induction propMetrics generalizing m with
  | nil => rfl
  | cons p rest ih =>
      rw [List.foldl_cons, ih (fun q hq => hpm q (List.mem_cons_of_mem _ hq)),
        tsState_ensureAndTag _ _ _ (hpm p (List.mem_cons_self _ _))]

theorem tsState_wdlOps (counterInfo : List (String × Counter)) (vn : String)
    (m : SMatrix) :
    ∀ m' ci', wdlOps counterInfo vn m = .ok (m', ci') → tsState m' = tsState m := by
  intro m' ci' h
  unfold wdlOps at h
  by_cases hs : (m.getMetric "ops").isSome
  · rw [if_pos hs] at h
    simp only [Except.ok.injEq, Prod.mk.injEq] at h
    rw [← h.1]
  · rw [if_neg hs] at h
    cases hl : lookupKey vn counterInfo with
    | none =>
        rw [hl] at h
        exact Except.noConfusion h
    | some vc =>
        rw [hl] at h
        simp only [Except.ok.injEq, Prod.mk.injEq] at h
        rw [← h.1, tsState_addMetric_ne _ _ _ (by decide)]

theorem tsState_wdlHide (m : SMatrix) : tsState (wdlHide m) = tsState m := by
  unfold wdlHide
  rw [tsState_updateMetric_ne _ _ _ (by decide), tsState_updateMetric_ne _ _ _ (by decide),
    tsState_updateMetric_ne _ _ _ (by decide)]

theorem foldl_resourceMapStep_error (sn : String) (rmap : List (String × String))
    (e : String) : rmap.foldl (resourceMapStep sn) (.error e) = .error e := by
  induction rmap with
  | nil => rfl
  | cons p rest ih =>
      rw [List.foldl_cons]
      exact ih

theorem tsState_resourceMapStep_fold (sn : String) (rmap : List (String × String))
    (hrm : ∀ p ∈ rmap, p.1 ≠ "timestamp") :
    ∀ (m : SMatrix) (ci : List (String × Counter)) (m' : SMatrix)
      (ci' : List (String × Counter)),
      rmap.foldl (resourceMapStep sn) (.ok (m, ci)) = .ok (m', ci') →
      tsState m' = tsState m := by
  induction rmap with
  | nil =>
      intro m ci m' ci' h
      simp only [List.foldl_nil, Except.ok.injEq, Prod.mk.injEq] at h
      rw [← h.1]
  | cons p rest ih =>
      intro m ci m' ci' h
      rw [List.foldl_cons] at h
      have hrest : ∀ q ∈ rest, q.1 ≠ "timestamp" :=
        fun q hq => hrm q (List.mem_cons_of_mem _ hq)
      by_cases hs : (m.getMetric p.1).isSome
      · rw [show resourceMapStep sn (.ok (m, ci)) p = .ok (m, ci) by
            simp only [resourceMapStep]; rw [if_pos hs]] at h
        exact ih hrest m ci m' ci' h
      · cases hl : lookupKey sn ci with
        | none =>
            rw [show resourceMapStep sn (.ok (m, ci)) p
                  = .error "missing counter metadata for service_time" by
                simp only [resourceMapStep]; rw [if_neg hs, hl]] at h
            rw [foldl_resourceMapStep_error] at h
            exact Except.noConfusion h
        | some sc =>
            rw [show resourceMapStep sn (.ok (m, ci)) p
                  = .ok (m.addMetric p.1
                      { name := "resource_latency", labels := [("resource", p.2)] },
                    (p.1, ({ name := "resource_latency", counterType := sc.counterType,
                             unit := sc.unit, denominator := "ops" } : Counter)) :: ci) by
                simp only [resourceMapStep]; rw [if_neg hs, hl]] at h
            rw [ih hrest _ _ m' ci' h,
              tsState_addMetric_ne _ _ _ (hrm p (List.mem_cons_self _ _))]

theorem tsState_processWorkLoadCounter (query : String)
    (propMetrics : List (String × RMetric))
    (resourceMap : Option (List (String × String)))
    (counterInfo : List (String × Counter)) (m : SMatrix)
    (hpm : ∀ p ∈ propMetrics, p.1 ≠ "timestamp")
    (hrm : ∀ rmap, resourceMap = some rmap → ∀ p ∈ rmap, p.1 ≠ "timestamp") :
    ∀ m' ci',
      processWorkLoadCounter query propMetrics resourceMap counterInfo m = .ok (m', ci') →
      tsState m' = tsState m := by
  intro m' ci' h
  unfold processWorkLoadCounter at h
  by_cases hq : isWorkloadDetailObject query = true
  · rw [hq] at h
    simp only [Bool.not_true, Bool.false_eq_true, if_false] at h
    cases hsv : (wdlEnsure propMetrics m).getMetric "service_time" with
    | none => rw [hsv] at h; exact Except.noConfusion h
    | some service =>
      cases hwt : (wdlEnsure propMetrics m).getMetric "wait_time" with
      | none => rw [hsv, hwt] at h; exact Except.noConfusion h
      | some wt =>
        cases hvs : (wdlEnsure propMetrics m).getMetric "visits" with
        | none => rw [hsv, hwt, hvs] at h; exact Except.noConfusion h
        | some visits =>
          rw [hsv, hwt, hvs] at h
          dsimp only at h
          cases hop : wdlOps counterInfo visits.name (wdlEnsure propMetrics m) with
          | error e => rw [hop] at h; exact Except.noConfusion h
          | ok pr =>
            obtain ⟨m₂, ci₂⟩ := pr
            rw [hop] at h
            cases hr : resourceMap with
            | none => rw [hr] at h; exact Except.noConfusion h
            | some rmap =>
              rw [hr] at h
              have h1 : tsState m' = tsState (wdlHide m₂) :=
                tsState_resourceMapStep_fold _ rmap (hrm rmap hr) _ _ _ _ h
              rw [h1, tsState_wdlHide,
                tsState_wdlOps counterInfo visits.name _ m₂ ci₂ hop,
                tsState_wdlEnsure propMetrics hpm m]
  · rw [Bool.not_eq_true] at hq
    rw [hq] at h
    simp only [Bool.not_false, if_true] at h
    simp only [Except.ok.injEq, Prod.mk.injEq] at h
    rw [← h.1]

theorem lookupKey_append_right_none {β : Type} (k : String) (l₁ l₂ : List (String × β))
    (h : lookupKey k l₁ = none) : lookupKey k (l₁ ++ l₂) = lookupKey k l₂ := by
  induction l₁ with
  | nil => simp
  | cons p rest ih =>
      by_cases hp : p.1 = k
      · simp [lookupKey, hp] at h
      · simp only [lookupKey, hp, if_neg, if_false] at h
        simp only [List.cons_append, lookupKey, hp, if_neg, if_false]
        exact ih h

theorem getMetric_addMetric_self (m : SMatrix) (k : String) (met : SMetric)
    (h : m.getMetric k = none) : (m.addMetric k met).getMetric k = some met := by
  show lookupKey k (m.metrics ++ [(k, met)]) = some met
  rw [lookupKey_append_right_none k m.metrics _ h]
  simp [lookupKey]

theorem addTimestampIfAbsent_of_isSome (m : SMatrix)
    (h : (m.getMetric "timestamp").isSome = true) : addTimestampIfAbsent m = m := by
  unfold addTimestampIfAbsent
  rw [if_pos h]

theorem addTimestampIfAbsent_getMetric (m : SMatrix)
    (hts : ∀ tm, m.getMetric "timestamp" = some tm →
      tm.property = "raw" ∧ tm.exportable = false ∧ tm.name = "timestamp") :
    ∃ tm, (addTimestampIfAbsent m).getMetric "timestamp" = some tm
      ∧ tm.property = "raw" ∧ tm.exportable = false ∧ tm.name = "timestamp" := by
  unfold addTimestampIfAbsent
  cases hg : m.getMetric "timestamp" with
  | some tm =>
      rw [if_pos Option.isSome_some]
      exact ⟨tm, hg, hts tm hg⟩
  | none =>
      rw [if_neg (by simp)]
      exact ⟨_, getMetric_addMetric_self m "timestamp" _ hg, rfl, rfl, rfl⟩

theorem count_ts_addTimestampIfAbsent (m : SMatrix)
    (hnd : (m.metrics.map Prod.fst).Nodup) :
    ((addTimestampIfAbsent m).metrics.map Prod.fst).count "timestamp" = 1 := by
  unfold addTimestampIfAbsent
  by_cases hs : (m.getMetric "timestamp").isSome
  · rw [if_pos hs]
    exact List.count_eq_one_of_mem hnd ((lookupKey_isSome_iff _ _).mp hs)
  · rw [if_neg hs]
    rw [keys_addMetric, List.count_append]
    have hnm : "timestamp" ∉ m.metrics.map Prod.fst := by
      intro hmem
      exact hs ((lookupKey_isSome_iff _ _).mpr hmem)
    rw [List.count_eq_zero.mpr hnm]
    decide

/-- C10: after every successful `PollCounter` the matrix carries exactly one
metric column keyed `timestamp`, whose property is `raw` and whose exportable
flag is false, so it never reaches exported output; the column is created only
when absent (the timestamp block is idempotent), so repeated polls never
duplicate it.  The hypotheses state the standing invariants of the source: a
matrix keys its metrics uniquely, any pre-existing synthetic timestamp was
built by this same block, and neither the template counters nor the resource
map use the reserved name `timestamp`. -/
theorem pollCounter_timestamp_unique (query : String)
    (propMetrics : List (String × RMetric))
    (resourceMap : Option (List (String × String)))
    (counterInfo : List (String × Counter)) (m : SMatrix)
    (hnd : (m.metrics.map Prod.fst).Nodup)
    (hts : ∀ tm, m.getMetric "timestamp" = some tm →
      tm.property = "raw" ∧ tm.exportable = false ∧ tm.name = "timestamp")
    (hpm : ∀ p ∈ propMetrics, p.1 ≠ "timestamp")
    (hrm : ∀ rmap, resourceMap = some rmap → ∀ p ∈ rmap, p.1 ≠ "timestamp") :
    (∀ m' ci',
      pollCounterMatrix query propMetrics resourceMap counterInfo m = .ok (m', ci') →
      (m'.metrics.map Prod.fst).count "timestamp" = 1
        ∧ (∃ tm, m'.getMetric "timestamp" = some tm ∧ tm.property = "raw"
            ∧ tm.exportable = false ∧ tm.name = "timestamp")
        ∧ addTimestampIfAbsent m' = m')
    ∧ addTimestampIfAbsent (addTimestampIfAbsent m) = addTimestampIfAbsent m := by
  obtain ⟨tm₀, hget₀, hp₀, he₀, hn₀⟩ := addTimestampIfAbsent_getMetric m hts
  have hcnt₀ := count_ts_addTimestampIfAbsent m hnd
  constructor
  · intro m' ci' h
    unfold pollCounterMatrix at h
    have hpres := tsState_processWorkLoadCounter query propMetrics resourceMap counterInfo
      (addTimestampIfAbsent m) hpm hrm m' ci' h
    have hgets : m'.getMetric "timestamp" = some tm₀ := by
      have hfst := congrArg Prod.fst hpres
      simpa [tsState, hget₀] using hfst
    have hcnt : (m'.metrics.map Prod.fst).count "timestamp" = 1 := by
      have hsnd := congrArg Prod.snd hpres
      simpa [tsState, hcnt₀] using hsnd
    exact ⟨hcnt, ⟨tm₀, hgets, hp₀, he₀, hn₀⟩,
      addTimestampIfAbsent_of_isSome m' (by rw [hgets]; rfl)⟩
  · exact addTimestampIfAbsent_of_isSome _ (by rw [hget₀]; rfl)

/-- Witness for C10: the empty matrix polled with a plain (non-workload) query
gains exactly one raw, non-exported `timestamp` column, and the block is
idempotent. -/
theorem pollCounter_timestamp_unique_witness :
    ((addTimestampIfAbsent (SMatrix.mk [])).metrics.map Prod.fst).count "timestamp" = 1
      ∧ (∃ tm, (addTimestampIfAbsent (SMatrix.mk [])).getMetric "timestamp" = some tm
          ∧ tm.property = "raw" ∧ tm.exportable = false ∧ tm.name = "timestamp")
      ∧ addTimestampIfAbsent (addTimestampIfAbsent (SMatrix.mk []))
          = addTimestampIfAbsent (SMatrix.mk []) :=
  (pollCounter_timestamp_unique "api/cluster/counter/tables/lun" [] none [] (SMatrix.mk [])
      (by decide) (fun tm h => Option.noConfusion h)
      (fun p hp => absurd hp (List.not_mem_nil p))
      (fun rmap h => Option.noConfusion h)).1
    (addTimestampIfAbsent (SMatrix.mk [])) [] rfl

end Harvest
